import Mathlib

/-!
Verification development for the Shopify e-commerce connector
(`ecommerce_integrations/shopify`).  The Python sources are shallowly
embedded: byte strings become `List Nat` (each entry `< 256`), the local
document store becomes an explicit `DB` record threaded through the upsert
functions, HTTP responses become explicit response values consumed in
order, and `frappe.throw` becomes `Except.error`.
-/

set_option maxHeartbeats 1000000

set_option maxRecDepth 4096

/-! ## Bytes and 32-bit words -/

/-- Truncate to a 32-bit word, as Python's `& 0xffffffff` masking inside
`hashlib`'s SHA-256 arithmetic. -/
def w32 (x : Nat) : Nat := x % 4294967296

/-- 32-bit right rotation. -/
def rotr (n x : Nat) : Nat := w32 ((x >>> n) ||| (x <<< (32 - n)))

/-- Big-endian byte serialisation of `x` on `n` bytes. -/
def toBytesBE : Nat → Nat → List Nat
  | 0, _ => []
  | n + 1, x => toBytesBE n (x / 256) ++ [x % 256]

/-! ## SHA-256 (model of Python's `hashlib.sha256`) -/

def shaCh (x y z : Nat) : Nat := (x &&& y) ^^^ ((4294967295 - x) &&& z)

def shaMaj (x y z : Nat) : Nat := (x &&& y) ^^^ (x &&& z) ^^^ (y &&& z)

def bigSigma0 (x : Nat) : Nat := rotr 2 x ^^^ rotr 13 x ^^^ rotr 22 x

def bigSigma1 (x : Nat) : Nat := rotr 6 x ^^^ rotr 11 x ^^^ rotr 25 x

def smallSigma0 (x : Nat) : Nat := rotr 7 x ^^^ rotr 18 x ^^^ (x >>> 3)

def smallSigma1 (x : Nat) : Nat := rotr 17 x ^^^ rotr 19 x ^^^ (x >>> 10)

/-- The 64 SHA-256 round constants. -/
def shaK : List Nat :=
  [1116352408, 1899447441, 3049323471, 3921009573, 961987163,
   1508970993, 2453635748, 2870763221, 3624381080, 310598401,
   607225278, 1426881987, 1925078388, 2162078206, 2614888103,
   3248222580, 3835390401, 4022224774, 264347078, 604807628,
   770255983, 1249150122, 1555081692, 1996064986, 2554220882,
   2821834349, 2952996808, 3210313671, 3336571891, 3584528711,
   113926993, 338241895, 666307205, 773529912, 1294757372,
   1396182291, 1695183700, 1986661051, 2177026350, 2456956037,
   2730485921, 2820302411, 3259730800, 3345764771, 3516065817,
   3600352804, 4094571909, 275423344, 430227734, 506948616,
   659060556, 883997877, 958139571, 1322822218, 1537002063,
   1747873779, 1955562222, 2024104815, 2227730452, 2361852424,
   2428436474, 2756734187, 3204031479, 3329325298]

/-- SHA-256 padding: append `0x80`, zero bytes up to 56 mod 64, then the
bit length on 8 big-endian bytes. -/
def padMessage (msg : List Nat) : List Nat :=
  let len := msg.length
  msg ++ [0x80] ++ List.replicate ((119 - len % 64) % 64) 0 ++ toBytesBE 8 (len * 8)

/-- Split a byte list into 64-byte blocks. -/
def toBlocks (l : List Nat) : List (List Nat) :=
  if h : l = [] then [] else
    have : (List.drop 64 l).length < l.length := by
      have hlen : 0 < l.length := List.length_pos.mpr h
      simp only [List.length_drop]
      omega
    l.take 64 :: toBlocks (l.drop 64)
termination_by l.length

/-- Big-endian 4-byte grouping of a block into 32-bit words. -/
def bytesToWords : List Nat → List Nat
  | a :: b :: c :: d :: rest => (a * 16777216 + b * 65536 + c * 256 + d) :: bytesToWords rest
  | _ => []

/-- One step of the SHA-256 message-schedule extension: the next word from
the trailing 16 words already computed. -/
def scheduleStep (w : List Nat) : Nat :=
  let g := fun (k : Nat) => w.getD (w.length - k) 0
  w32 (smallSigma1 (g 2) + g 7 + smallSigma0 (g 15) + g 16)

/-- Extend the 16-word schedule by `n` further words. -/
def extendW : Nat → List Nat → List Nat
  | 0, w => w
  | n + 1, w => extendW n (w ++ [scheduleStep w])

/-- The eight 32-bit working registers of the compression function. -/
structure Hash8 where
  a : Nat
  b : Nat
  c : Nat
  d : Nat
  e : Nat
  f : Nat
  g : Nat
  h : Nat
deriving DecidableEq

/-- SHA-256 initial hash value. -/
def shaH0 : Hash8 :=
  ⟨1779033703, 3144134277, 1013904242, 2773480762,
   1359893119, 2600822924, 528734635, 1541459225⟩

/-- One SHA-256 round on the working registers, for one `(k, w)` pair. -/
def roundFn (st : Hash8) (kw : Nat × Nat) : Hash8 :=
  let t1 := w32 (st.h + bigSigma1 st.e + shaCh st.e st.f st.g + kw.1 + kw.2)
  let t2 := w32 (bigSigma0 st.a + shaMaj st.a st.b st.c)
  ⟨w32 (t1 + t2), st.a, st.b, st.c, w32 (st.d + t1), st.e, st.f, st.g⟩

/-- Compress one 64-byte block into the running hash state. -/
def compressBlock (hs : Hash8) (block : List Nat) : Hash8 :=
  let w := extendW 48 (bytesToWords block)
  let st := (shaK.zip w).foldl roundFn hs
  ⟨w32 (hs.a + st.a), w32 (hs.b + st.b), w32 (hs.c + st.c), w32 (hs.d + st.d),
   w32 (hs.e + st.e), w32 (hs.f + st.f), w32 (hs.g + st.g), w32 (hs.h + st.h)⟩

/-- SHA-256 of a byte string, as a 32-byte digest. -/
def sha256 (msg : List Nat) : List Nat :=
  let hs := (toBlocks (padMessage msg)).foldl compressBlock shaH0
  [hs.a, hs.b, hs.c, hs.d, hs.e, hs.f, hs.g, hs.h].flatMap (toBytesBE 4)

/-! ## HMAC-SHA256 (model of Python's `hmac.new(key, msg, hashlib.sha256)`) -/

/-- HMAC-SHA256 digest of `msg` under `key`. -/
def hmacSha256 (key msg : List Nat) : List Nat :=
  let k1 := if key.length > 64 then sha256 key else key
  let k2 := k1 ++ List.replicate (64 - k1.length) 0
  sha256 ((k2.map (fun b => b ^^^ 0x5c)) ++ sha256 ((k2.map (fun b => b ^^^ 0x36)) ++ msg))

/-! ## Base64 (model of Python's `base64.b64encode`) -/

/-- ASCII code of the `i`-th character of the standard base64 alphabet. -/
def b64Char (i : Nat) : Nat :=
  ((List.range 26).map (fun k => 65 + k) ++ (List.range 26).map (fun k => 97 + k) ++
   (List.range 10).map (fun k => 48 + k) ++ [43, 47]).getD i 0

/-- Standard base64 encoding of a byte string, result as ASCII bytes
(61 is the code of the padding character). -/
def b64encode : List Nat → List Nat
  | a :: b :: c :: rest =>
    let n := a * 65536 + b * 256 + c
    b64Char ((n >>> 18) &&& 63) :: b64Char ((n >>> 12) &&& 63) ::
      b64Char ((n >>> 6) &&& 63) :: b64Char (n &&& 63) :: b64encode rest
  | [a, b] =>
    let n := a * 65536 + b * 256
    [b64Char ((n >>> 18) &&& 63), b64Char ((n >>> 12) &&& 63), b64Char ((n >>> 6) &&& 63), 61]
  | [a] =>
    let n := a * 65536
    [b64Char ((n >>> 18) &&& 63), b64Char ((n >>> 12) &&& 63), 61, 61]
  | [] => []

/-! ## Inbound webhook validation (`connection._validate_request`,
`connection.store_request_data`) -/

/-- The signature `connection._validate_request` computes:
`base64.b64encode(hmac.new(secret_key.encode("utf8"), req.data, hashlib.sha256).digest())`. -/
def computeSig (secret body : List Nat) : List Nat := b64encode (hmacSha256 secret body)

/-- Outcome of `store_request_data` on one inbound request: either the
payload is handed to `process_request`, or `_validate_request` logged an
error Shopify log and raised `Unverified Webhook Data`. -/
inductive WebhookOutcome where
  | processed (payload : List Nat) (event : String)
  | rejectedAndLogged
deriving DecidableEq

/-- Model of `connection.store_request_data`: validate the raw body against
the `X-Shopify-Hmac-Sha256` header (`_validate_request`, which compares the
base64-encoded HMAC-SHA256 digest byte-for-byte with the header and on
mismatch creates an error log and throws), then hand the payload and the
`X-Shopify-Topic` event to `process_request`. -/
def store_request_data (secret body header : List Nat) (event : String) : WebhookOutcome :=
  if computeSig secret body = header then .processed body event else .rejectedAndLogged

/-! ## Remote records and the local document store -/

/-- Python string truthiness fallback `a or b` on optional strings:
`None` and the empty string are falsy. -/
def orStr (a b : Option String) : Option String :=
  match a with
  | some s => if s = "" then b else some s
  | none => b

/-- Python truthiness filter: `some s` when `s` is a truthy string. -/
def truthy (a : Option String) : Option String :=
  match a with
  | some s => if s = "" then none else some s
  | none => none

/-- One address entry of a remote Shopify customer record.  `isDefault`
models the `default` key. -/
structure RemoteAddress where
  id : Nat
  isDefault : Bool
  address1 : Option String
  address2 : Option String
  city : Option String
  province : Option String
  zip : Option String
  country : Option String
  phone : Option String
deriving DecidableEq

/-- A remote Shopify customer record as consumed by
`sync_customers.create_or_update_customer`. -/
structure RemoteCustomer where
  id : Nat
  first_name : Option String
  last_name : Option String
  email : Option String
  phone : Option String
  addresses : List RemoteAddress
deriving DecidableEq

/-- `customer_name = (first_name + ' ' + last_name).strip() or email`. -/
def remoteCustomerName (r : RemoteCustomer) : Option String :=
  let s := (r.first_name.getD "" ++ " " ++ r.last_name.getD "").trim
  if s = "" then r.email else some s

/-- A local ERPNext Customer document.  `name` is the framework-assigned
document name, modelled as a number drawn from the store's counter. -/
structure CustomerDoc where
  name : Nat
  customer_name : Option String
  customer_type : String
  customer_group : String
  territory : String
  custom_shopify_customer_id : String
  email_id : Option String
  phone : Option String
deriving DecidableEq

/-- A local ERPNext Address document; `links` models the dynamic-link child
rows (`link_doctype`, `link_name`). -/
structure AddressDoc where
  name : Nat
  shopify_address_id : String
  address_title : Option String
  address_type : String
  address_line1 : String
  address_line2 : String
  city : String
  state : String
  pincode : String
  country : String
  phone : String
  email_id : Option String
  links : List (String × Nat)
deriving DecidableEq

/-- A local ERPNext Contact document. -/
structure ContactDoc where
  name : Nat
  first_name : Option String
  last_name : Option String
  phone : String
  email_id : Option String
deriving DecidableEq

/-- The local document store: the three collections the sync touches, plus
the counter from which new document names are drawn. -/
structure DB where
  customers : List CustomerDoc
  addresses : List AddressDoc
  contacts : List ContactDoc
  nextName : Nat
deriving DecidableEq

/-! ## The lookup-then-branch upsert shared by all three collections -/

/-- Replace every document named `n` by `d`. -/
def replaceByName (nameOf : α → Nat) (l : List α) (n : Nat) (d : α) : List α :=
  l.map fun x => if nameOf x = n then d else x

/-- `frappe.get_doc(doctype, name)`: the first document with that name. -/
def findByName (nameOf : α → Nat) (l : List α) (n : Nat) : Option α :=
  l.find? fun x => nameOf x = n

/-- Result of one upsert: the updated collection, the updated name counter,
and the document value that was saved. -/
structure UpsertOut (α : Type) where
  docs : List α
  fresh : Nat
  doc : α
deriving DecidableEq

/-- The lookup-then-branch pattern of `create_or_update_customer`,
`create_or_update_address` and `handle_customer_contacts`:
`frappe.db.get_value` by the external key (`keyTest`), then either
`frappe.get_doc` by document name, set the mapped fields and save in place,
or construct a new document, set the mapped fields and insert it under a
fresh name. -/
def upsertDoc (nameOf : α → Nat) (keyTest : α → Bool) (applyFields : α → α)
    (mkNew : Nat → α) (l : List α) (fresh : Nat) : UpsertOut α :=
  match l.find? keyTest with
  | some c0 =>
    let loaded := (findByName nameOf l (nameOf c0)).getD c0
    let d := applyFields loaded
    ⟨replaceByName nameOf l (nameOf c0) d, fresh, d⟩
  | none =>
    let d := applyFields (mkNew fresh)
    ⟨l ++ [d], fresh + 1, d⟩

/-! ## `sync_customers.create_or_update_customer` and its cascades -/

/-- The field assignments `create_or_update_customer` performs on the
Customer document before saving. -/
def applyCustomerFields (r : RemoteCustomer) (c : CustomerDoc) : CustomerDoc :=
  { c with customer_name := remoteCustomerName r, email_id := r.email, phone := r.phone,
           custom_shopify_customer_id := toString r.id }

/-- The new-Customer document constructed when no document carries the
Shopify customer id. -/
def mkNewCustomer (r : RemoteCustomer) (n : Nat) : CustomerDoc :=
  { name := n, customer_name := remoteCustomerName r, customer_type := "Individual",
    customer_group := "All Customer Groups", territory := "All Territories",
    custom_shopify_customer_id := toString r.id, email_id := none, phone := none }

/-- The Customer part of `create_or_update_customer`: look up by
`custom_shopify_customer_id`, update in place or insert, returning the
saved document (the `customer` object the cascades receive). -/
def customerUpsert (db : DB) (r : RemoteCustomer) : DB × CustomerDoc :=
  let out := upsertDoc (fun c => c.name) (fun c => c.custom_shopify_customer_id == toString r.id)
    (applyCustomerFields r) (mkNewCustomer r) db.customers db.nextName
  ({ db with customers := out.docs, nextName := out.fresh }, out.doc)

/-- The `address_fields` dict of `create_or_update_address`, applied to a
loaded or freshly constructed Address document. -/
def applyAddressFields (cust : CustomerDoc) (a : RemoteAddress) (x : AddressDoc) : AddressDoc :=
  { x with shopify_address_id := toString a.id,
           address_title := cust.customer_name,
           address_type := if a.isDefault then "Billing" else "Shipping",
           address_line1 := a.address1.getD "", address_line2 := a.address2.getD "",
           city := a.city.getD "", state := a.province.getD "", pincode := a.zip.getD "",
           country := a.country.getD "", phone := a.phone.getD "",
           email_id := cust.email_id, links := [("Customer", cust.name)] }

/-- A blank Address document under a fresh name; `applyAddressFields` then
sets every mapped field, mirroring `frappe.get_doc(address_fields)`. -/
def mkNewAddress (n : Nat) : AddressDoc :=
  ⟨n, "", none, "", "", "", "", "", "", "", "", none, []⟩

/-- `sync_customers.create_or_update_address`: upsert one address keyed by
`shopify_address_id`. -/
def create_or_update_address (cust : CustomerDoc) (db : DB) (a : RemoteAddress) : DB :=
  let out := upsertDoc (fun x => x.name) (fun x => x.shopify_address_id == toString a.id)
    (applyAddressFields cust a) mkNewAddress db.addresses db.nextName
  { db with addresses := out.docs, nextName := out.fresh }

/-- `sync_customers.handle_customer_addresses`: upsert each address of the
remote record in order. -/
def handle_customer_addresses (cust : CustomerDoc) (db : DB) (r : RemoteCustomer) : DB :=
  r.addresses.foldl (create_or_update_address cust) db

/-- The `contact_fields` dict of `handle_customer_contacts`: always sets
first name (falling back to the customer name), last name and phone, and
sets the email only when the remote record carries a truthy email. -/
def applyContactFields (cust : CustomerDoc) (r : RemoteCustomer) (p : String)
    (x : ContactDoc) : ContactDoc :=
  { x with first_name := orStr r.first_name cust.customer_name,
           last_name := r.last_name,
           phone := p,
           email_id := match truthy r.email with | some e => some e | none => x.email_id }

/-- A blank Contact document under a fresh name. -/
def mkNewContact (n : Nat) : ContactDoc := ⟨n, none, none, "", none⟩

/-- The contact upsert of `handle_customer_contacts`: look up the Contact
by the bare phone number, update in place or insert. -/
def contactUpsert (cust : CustomerDoc) (r : RemoteCustomer) (p : String) (db : DB) : DB :=
  let out := upsertDoc (fun x => x.name) (fun x => x.phone == p)
    (applyContactFields cust r p) mkNewContact db.contacts db.nextName
  { db with contacts := out.docs, nextName := out.fresh }

/-- `sync_customers.handle_customer_contacts`: skip (with a warning log)
when the record has no truthy phone, otherwise upsert the contact whose
lookup key is the bare phone number. -/
def handle_customer_contacts (cust : CustomerDoc) (r : RemoteCustomer) (db : DB) : DB :=
  match r.phone with
  | none => db
  | some p => if p = "" then db else contactUpsert cust r p db

/-- `sync_customers.create_or_update_customer`: upsert the Customer, then
cascade into its addresses and its contact.  The `store_domain` and
`access_token` arguments of the source are unused by its logic and
omitted. -/
def create_or_update_customer (db : DB) (r : RemoteCustomer) : DB :=
  let s := customerUpsert db r
  handle_customer_contacts s.2 r (handle_customer_addresses s.2 s.1 r)

/-! ## Specification-side predicates used by the upsert theorems -/

/-- Well-formed collection: document names are distinct and all below the
store's name counter. -/
abbrev WFL {α : Type} (nameOf : α → Nat) (l : List α) (fresh : Nat) : Prop :=
  (l.map nameOf).Nodup ∧ ∀ x ∈ l, nameOf x < fresh

/-- The saved document is the one its key test finds, is the unique holder
of its document name, and is a fixed point of the field assignment. -/
def GoodDoc {α : Type} (nameOf : α → Nat) (kt : α → Bool) (ap : α → α)
    (l : List α) (d : α) : Prop :=
  l.find? kt = some d ∧ (∀ x ∈ l, nameOf x = nameOf d → x = d) ∧ ap d = d

/-- Well-formed store: every collection has distinct document names, all
below the name counter. -/
abbrev DBWF (db : DB) : Prop :=
  WFL (fun c : CustomerDoc => c.name) db.customers db.nextName ∧
    WFL (fun a : AddressDoc => a.name) db.addresses db.nextName ∧
    WFL (fun k : ContactDoc => k.name) db.contacts db.nextName

/-- The Customer document saved for `r` is established in the store. -/
abbrev GoodC (r : RemoteCustomer) (db : DB) (c : CustomerDoc) : Prop :=
  GoodDoc (fun x : CustomerDoc => x.name)
    (fun x => x.custom_shopify_customer_id == toString r.id) (applyCustomerFields r)
    db.customers c

/-- Some Address document saved for `a` (under customer `cust`) is
established in the store. -/
abbrev GoodA (cust : CustomerDoc) (a : RemoteAddress) (db : DB) : Prop :=
  ∃ d, GoodDoc (fun x : AddressDoc => x.name)
    (fun x => x.shopify_address_id == toString a.id) (applyAddressFields cust a)
    db.addresses d

/-- Some Contact document saved for phone `p` (fields from `cust`, `r`) is
established in the store. -/
abbrev GoodK (cust : CustomerDoc) (r : RemoteCustomer) (p : String) (db : DB) : Prop :=
  ∃ d, GoodDoc (fun x : ContactDoc => x.name) (fun x => x.phone == p)
    (applyContactFields cust r p) db.contacts d

/-! ## Paginated fetch models

An HTTP exchange is modelled by a list of `FetchResp` values consumed in
order: entry `i` is the server's response to the `i`-th request the loop
issues.  `linkNext` is the `page_info` cursor parsed from the `rel="next"`
entry of the response's `Link` header (`none` when the header carries no
next link). -/

/-- One HTTP response of the customers list endpoint. -/
structure FetchResp where
  status : Nat
  text : String
  customers : List RemoteCustomer
  linkNext : Option String
deriving DecidableEq

/-- The query parameters of one issued list request. -/
structure ReqParams where
  limit : Nat
  page_info : Option String
deriving DecidableEq

/-- The `while True` loop of `connection.get_shopify_customers`: request
with `limit = 250` and the current `page_info`, throw on a non-200 status,
extend the accumulator, and continue while the `Link` header yields a next
cursor.  The trace records the parameters of every request issued.  An
exhausted response list while a next cursor is pending is a server-model
artifact and yields an error. -/
def connFetchLoop : List FetchResp → Option String → List RemoteCustomer → List ReqParams →
    Except String (List RemoteCustomer × List ReqParams)
  | [], _, _, _ => .error "no response"
  | r :: rest, cur, acc, trace =>
    let trace := trace ++ [⟨250, cur⟩]
    if r.status ≠ 200 then .error ("Error fetching customers from Shopify: " ++ r.text)
    else
      let acc := acc ++ r.customers
      match r.linkNext with
      | none => .ok (acc, trace)
      | some t => connFetchLoop rest (some t) acc trace

/-- `connection.get_shopify_customers` (the `while True` pagination loop on
the raw REST endpoint; its enclosing `try` re-raises via `frappe.throw`, so
errors surface to the caller unchanged). -/
def connection_get_shopify_customers (resps : List FetchResp) :
    Except String (List RemoteCustomer × List ReqParams) :=
  connFetchLoop resps none [] []

/-- The `while url` loop of `shopify_requests.get_shopify_customers`: every
request passes `params = {limit: 250}`, a non-200 status throws, and the
loop follows the `rel="next"` URL of the `Link` header until absent.  The
trace records the `limit` parameter of every request issued. -/
def requestsFetchLoop : List FetchResp → List RemoteCustomer → List Nat →
    Except String (List RemoteCustomer × List Nat)
  | [], _, _ => .error "no response"
  | r :: rest, acc, trace =>
    let trace := trace ++ [250]
    if r.status = 200 then
      let acc := acc ++ r.customers
      match r.linkNext with
      | none => .ok (acc, trace)
      | some _ => requestsFetchLoop rest acc trace
    else .error ("Error fetching customers from Shopify: " ++ r.text)

/-- `shopify_requests.get_shopify_customers`. -/
def requests_get_shopify_customers (resps : List FetchResp) :
    Except String (List RemoteCustomer × List Nat) :=
  requestsFetchLoop resps [] []

/-! ## `sync_customers.sync_all_customers` -/

/-- A Frappe log entry: `frappe.log_error(message, title)` or a
`frappe.logger().info(message)` line. -/
inductive LogEntry where
  | errorLog (message : String) (title : String)
  | infoLog (message : String)
deriving DecidableEq

/-- The fetch loop of `sync_all_customers`: on a 200 response extend the
collected list and follow the next cursor; on any other status log the
truncated error title under `Shopify Customer Fetch Error` and stop the
loop — without raising. -/
def fetchPhase : List FetchResp → List RemoteCustomer → List LogEntry →
    List RemoteCustomer × List LogEntry
  | [], acc, logs => (acc, logs)
  | r :: rest, acc, logs =>
    if r.status = 200 then
      let acc := acc ++ r.customers
      match r.linkNext with
      | none => (acc, logs)
      | some _ => fetchPhase rest acc logs
    else
      (acc, logs ++ [.errorLog
        (("Shopify API Error: " ++ toString r.status ++ " - " ++ r.text).take 140)
        "Shopify Customer Fetch Error"])

/-- One iteration of the inner `for customer_data in batch` loop:
`try: create_or_update_customer(...)` with the per-record `except` that
logs the truncated error title under `Shopify Customer Import Error` and
continues.  `f` is the per-record mapping action (the body of the `try`),
which may fail with an exception message. -/
def processRecord (f : DB → RemoteCustomer → Except String DB) (st : DB × List LogEntry)
    (c : RemoteCustomer) : DB × List LogEntry :=
  match f st.1 c with
  | .ok db' => (db', st.2)
  | .error e => (st.1, st.2 ++ [.errorLog
      (("Shopify Customer Import Error for ID " ++ toString c.id ++ ": " ++ e).take 140)
      "Shopify Customer Import Error"])

/-- The `while processed < total_customers` batch loop: slice off the next
1000 customers, map each with the per-record `try`, log the batch progress
and commit. -/
def processBatches (f : DB → RemoteCustomer → Except String DB) (total : Nat) :
    List RemoteCustomer → Nat → DB × List LogEntry → DB × List LogEntry
  | customers, processed, st =>
    if h : customers = [] then st
    else
      have : (List.drop 1000 customers).length < customers.length := by
        have hlen : 0 < customers.length := List.length_pos.mpr h
        simp only [List.length_drop]
        omega
      let st := (customers.take 1000).foldl (processRecord f) st
      let st := (st.1, st.2 ++ [.infoLog
        ("Processed " ++ toString (processed + 1000) ++ " / " ++ toString total ++ " customers.")])
      processBatches f total (customers.drop 1000) (processed + 1000) st
termination_by customers => customers.length

/-- The value `sync_all_customers` returns to its caller (Python `None`)
together with the final store and the log trail. -/
structure SyncResult where
  db : DB
  logs : List LogEntry
  ret : Unit
deriving DecidableEq

/-- `sync_customers.sync_all_customers`, generic in the per-record action
`f` (the body of the per-record `try`, which the source instantiates with
`create_or_update_customer`): fetch pages until the cursor is absent or a
non-200 status stops the loop, then process the collected customers in
batches of 1000, then log completion and return `None`. -/
def sync_all_customers_with (f : DB → RemoteCustomer → Except String DB)
    (resps : List FetchResp) (db : DB) : SyncResult :=
  let fetched := fetchPhase resps [] []
  let total := fetched.1.length
  let logs := fetched.2 ++ [.infoLog
    ("Total customers fetched: " ++ toString total ++ ". Starting processing.")]
  let out := processBatches f total fetched.1 0 (db, logs)
  ⟨out.1, out.2 ++ [.infoLog "Completed syncing all Shopify customers."], ()⟩

/-- The per-record action the source uses: `create_or_update_customer`,
which in this pure embedding always succeeds. -/
def shopifyMapper (db : DB) (r : RemoteCustomer) : Except String DB :=
  .ok (create_or_update_customer db r)

/-- `sync_customers.sync_all_customers` as written (per-record action
instantiated with `create_or_update_customer`). -/
def sync_all_customers (resps : List FetchResp) (db : DB) : SyncResult :=
  sync_all_customers_with shopifyMapper resps db

/-! ## Webhook registration (`connection.register_webhooks`,
`connection.unregister_webhooks`) -/

/-- A webhook subscription held by the remote platform. -/
structure RemoteWebhook where
  id : Nat
  topic : String
  address : String
deriving DecidableEq

/-- The remote platform's webhook store: the subscription list and the id
counter from which created subscriptions are numbered. -/
structure ShopState where
  webhooks : List RemoteWebhook
  nextId : Nat
deriving DecidableEq

/-- Python's substring test `needle in hay` on strings (as character
lists). -/
def containsSub (needle : List Char) : List Char → Bool
  | [] => needle.isPrefixOf []
  | c :: rest => needle.isPrefixOf (c :: rest) || containsSub needle rest

/-- `connection.get_callback_url()`: the deployment's inbound endpoint
under the current domain. -/
def get_callback_url (domain : String) : String :=
  "https://" ++ domain ++ "/api/method/ecommerce_integrations.shopify.connection.store_request_data"

/-- A `DELETE /webhooks/{id}.json` handled by the remote platform. -/
def deleteWebhook (s : ShopState) (i : Nat) : ShopState :=
  { s with webhooks := s.webhooks.filter fun w => w.id ≠ i }

/-- `connection.unregister_webhooks`: list the remote subscriptions and
delete every one whose address contains the current domain name (Python's
`get_current_domain_name() in address`). -/
def unregister_webhooks (domain : String) (s : ShopState) : ShopState :=
  s.webhooks.foldl
    (fun st w => if containsSub domain.toList w.address.toList then deleteWebhook st w.id else st) s

/-- A `POST /webhooks.json` handled by the remote platform on the success
path: the subscription is created with the posted topic and address and a
fresh id, and returned (status 201). -/
def createWebhook (s : ShopState) (topic address : String) : ShopState × RemoteWebhook :=
  let w : RemoteWebhook := ⟨s.nextId, topic, address⟩
  ({ webhooks := s.webhooks ++ [w], nextId := s.nextId + 1 }, w)

/-- Modelled from the spec: the required topic list `WEBHOOK_EVENTS` lives
in `ecommerce_integrations/shopify/constants.py`, which is not among the
sources; the register loop is therefore generic in the topic list it
enumerates. -/
def registerLoop (domain : String) (topics : List String) (acc : ShopState × List RemoteWebhook) :
    ShopState × List RemoteWebhook :=
  topics.foldl
    (fun st topic =>
      let out := createWebhook st.1 topic (get_callback_url domain)
      (out.1, st.2 ++ [out.2])) acc

/-- `connection.register_webhooks` on the success path: first delete every
stale subscription matching the current domain, then create one
subscription per required topic addressed at the current callback URL,
returning the created webhooks. -/
def register_webhooks (domain : String) (topics : List String) (s : ShopState) :
    ShopState × List RemoteWebhook :=
  registerLoop domain topics (unregister_webhooks domain s, [])

/-! ## Inbound event dispatch (`connection.process_request`) -/

/-- The observable effects of `process_request`, in order: the Shopify log
created for the event, then the background job enqueued with the mapped
handler method. -/
inductive Effect where
  | logCreated (method : String)
  | enqueued (method : String)
deriving DecidableEq

/-- Modelled from the spec: `EVENT_MAPPER` lives in
`ecommerce_integrations/shopify/constants.py`, which is not among the
sources; it maps an event-topic header to the dotted path of its handler
and is modelled as an association list.  `EVENT_MAPPER[event]` is its
Python `dict` subscript, whose failure is a `KeyError`. -/
def lookupMapper (mapper : List (String × String)) (event : String) : Option String :=
  (mapper.find? fun kv => kv.1 == event).map fun kv => kv.2

/-- `connection.process_request`: `EVENT_MAPPER[event]` is subscripted
first (inside the `create_shopify_log` argument list), so an unmapped
topic raises `KeyError` before the log is created or any job enqueued; on
a mapped topic the log is created and the handler enqueued. -/
def process_request (mapper : List (String × String)) (event : String) :
    Except String (List Effect) :=
  match lookupMapper mapper event with
  | none => .error ("KeyError: " ++ event)
  | some m => .ok [.logCreated m, .enqueued m]

/-- The store reached by mapping each record in order, where a failing
record leaves the store unchanged (the per-record `except` swallows the
exception): the reference fold the batch loop is proved equal to. -/
def procDB (f : DB → RemoteCustomer → Except String DB) (l : List RemoteCustomer)
    (db : DB) : DB :=
  l.foldl (fun d c => match f d c with | .ok d2 => d2 | .error _ => d) db

/-- The webhooks the register loop creates: one per topic, ids drawn in
order from the platform's counter, all addressed at the callback URL. -/
def mkRegged (domain : String) (i : Nat) : List String → List RemoteWebhook
  | [] => []
  | t :: ts => ⟨i, t, get_callback_url domain⟩ :: mkRegged domain (i + 1) ts

/-- The delete set of `unregister_webhooks`: the ids of the listed
subscriptions whose address contains the domain. -/
def delIds (domain : String) (l : List RemoteWebhook) : List Nat :=
  (l.filter fun w => containsSub domain.toList w.address.toList).map fun w => w.id

/-! ## Generic facts about the shared upsert pattern -/

section UpsertLemmas

variable {α : Type} (nameOf : α → Nat)

theorem find?_eq_of_unique {p : α → Bool} {l : List α} {c : α} (hm : c ∈ l) (hp : p c = true)
    (hu : ∀ x ∈ l, p x = true → x = c) : l.find? p = some c := by
  induction l with
  | nil => cases hm
  | cons y t ih =>
    by_cases hy : p y = true
    · rw [List.find?_cons_of_pos _ hy, hu y (List.mem_cons_self y t) hy]
    · rw [List.find?_cons_of_neg _ hy]
      rcases List.mem_cons.mp hm with h | h
      · exact absurd (h ▸ hp) hy
      · exact ih h fun x hx => hu x (List.mem_cons_of_mem _ hx)

theorem find?_replaceByName {p : α → Bool} {l : List α} {a d : α}
    (hf : l.find? p = some a) (hu : ∀ x ∈ l, nameOf x = nameOf a → x = a)
    (hd : p d = true) :
    (replaceByName nameOf l (nameOf a) d).find? p = some d := by
  induction l with
  | nil => simp at hf
  | cons y t ih =>
    by_cases hy : p y = true
    · rw [List.find?_cons_of_pos _ hy] at hf
      injection hf with h
      subst h
      simp only [replaceByName, List.map_cons, if_pos rfl]
      exact List.find?_cons_of_pos _ hd
    · rw [List.find?_cons_of_neg _ hy] at hf
      have hyn : nameOf y ≠ nameOf a := fun h => hy (by
        have : y = a := hu y (List.mem_cons_self y t) h
        exact this ▸ List.find?_some hf)
      simp only [replaceByName, List.map_cons, if_neg hyn]
      rw [List.find?_cons_of_neg _ hy]
      exact ih hf fun x hx => hu x (List.mem_cons_of_mem _ hx)

theorem find?_map_of_fix {p : α → Bool} {f : α → α} {l : List α} {a : α}
    (hf : l.find? p = some a) (hfix : f a = a)
    (hpres : ∀ x ∈ l, p x = false → p (f x) = false) :
    (l.map f).find? p = some a := by
  induction l with
  | nil => simp at hf
  | cons y t ih =>
    by_cases hy : p y = true
    · rw [List.find?_cons_of_pos _ hy] at hf
      injection hf with h
      subst h
      simp only [List.map_cons]
      rw [hfix]
      exact List.find?_cons_of_pos _ hy
    · rw [List.find?_cons_of_neg _ hy] at hf
      simp only [List.map_cons]
      have : p (f y) = false :=
        hpres y (List.mem_cons_self y t) (Bool.eq_false_iff.mpr hy)
      rw [List.find?_cons_of_neg _ (by simp [this])]
      exact ih hf fun x hx => hpres x (List.mem_cons_of_mem _ hx)

theorem replaceByName_self {l : List α} {n : Nat} {d : α}
    (hu : ∀ x ∈ l, nameOf x = n → x = d) : replaceByName nameOf l n d = l := by
  induction l with
  | nil => rfl
  | cons y t ih =>
    simp only [replaceByName, List.map_cons]
    congr 1
    · by_cases hy : nameOf y = n
      · rw [if_pos hy, hu y (List.mem_cons_self y t) hy]
      · rw [if_neg hy]
    · exact ih fun x hx => hu x (List.mem_cons_of_mem _ hx)

theorem replaceByName_map_nameOf {l : List α} {n : Nat} {d : α} (hd : nameOf d = n) :
    (replaceByName nameOf l n d).map nameOf = l.map nameOf := by
  induction l with
  | nil => rfl
  | cons y t ih =>
    simp only [replaceByName, List.map_cons] at *
    rw [ih]
    congr 1
    by_cases hy : nameOf y = n
    · rw [if_pos hy, hd, hy]
    · rw [if_neg hy]

theorem mem_replaceByName {l : List α} {n : Nat} {d x : α}
    (hx : x ∈ replaceByName nameOf l n d) : x = d ∨ (x ∈ l ∧ nameOf x ≠ n) := by
  rcases List.mem_map.mp hx with ⟨y, hy, he⟩
  by_cases hyn : nameOf y = n
  · rw [if_pos hyn] at he
    exact Or.inl he.symm
  · rw [if_neg hyn] at he
    exact Or.inr ⟨he ▸ hy, he ▸ hyn⟩

theorem nameOf_findByName_getD {l : List α} {c0 : α} :
    nameOf ((findByName nameOf l (nameOf c0)).getD c0) = nameOf c0 := by
  unfold findByName
  cases hf : l.find? (fun x => nameOf x = nameOf c0) with
  | none => simp
  | some x =>
    have := List.find?_some hf
    simp only [decide_eq_true_eq] at this
    simp [this]

theorem upsertDoc_wf {kt : α → Bool} {ap : α → α} {mk : Nat → α} {l : List α} {fresh : Nat}
    (hap : ∀ x, nameOf (ap x) = nameOf x) (hmk : ∀ n, nameOf (mk n) = n)
    (hwf : WFL nameOf l fresh) :
    WFL nameOf (upsertDoc nameOf kt ap mk l fresh).docs
      (upsertDoc nameOf kt ap mk l fresh).fresh ∧
      fresh ≤ (upsertDoc nameOf kt ap mk l fresh).fresh := by
  obtain ⟨hnd, hb⟩ := hwf
  unfold upsertDoc
  cases hf : l.find? kt with
  | some c0 =>
    simp only
    have hname : nameOf (ap ((findByName nameOf l (nameOf c0)).getD c0)) = nameOf c0 := by
      rw [hap]
      exact nameOf_findByName_getD nameOf
    refine ⟨⟨?_, ?_⟩, le_refl _⟩
    · rw [replaceByName_map_nameOf nameOf hname]
      exact hnd
    · intro x hx
      rcases mem_replaceByName nameOf hx with h | h
      · rw [h, hname]
        exact hb c0 (List.mem_of_find?_eq_some hf)
      · exact hb x h.1
  | none =>
    simp only
    refine ⟨⟨?_, ?_⟩, Nat.le_succ _⟩
    · rw [List.map_append, List.nodup_append]
      refine ⟨hnd, List.nodup_singleton _, ?_⟩
      intro a ha ha2
      simp only [List.map_cons, List.map_nil, List.mem_singleton] at ha2
      rw [ha2, hap, hmk] at ha
      rcases List.mem_map.mp ha with ⟨y, hy, he⟩
      exact absurd he (Nat.ne_of_lt (hb y hy))
  -- second component of WFL in the insert branch
    · intro x hx
      rcases List.mem_append.mp hx with h | h
      · exact Nat.lt_succ_of_lt (hb x h)
      · have hxd : x = ap (mk fresh) := by simpa using h
        rw [hxd, hap, hmk]
        exact Nat.lt_succ_self _

theorem upsertDoc_good {kt : α → Bool} {ap : α → α} {mk : Nat → α} {l : List α} {fresh : Nat}
    (hap : ∀ x, nameOf (ap x) = nameOf x) (hmk : ∀ n, nameOf (mk n) = n)
    (hktap : ∀ x, kt (ap x) = true) (hapap : ∀ x, ap (ap x) = ap x)
    (hwf : WFL nameOf l fresh) :
    GoodDoc nameOf kt ap (upsertDoc nameOf kt ap mk l fresh).docs
      (upsertDoc nameOf kt ap mk l fresh).doc := by
  obtain ⟨hnd, hb⟩ := hwf
  unfold upsertDoc
  cases hf : l.find? kt with
  | some c0 =>
    simp only
    have huniq : ∀ x ∈ l, nameOf x = nameOf c0 → x = c0 := fun x hx hn =>
      List.inj_on_of_nodup_map hnd hx (List.mem_of_find?_eq_some hf) hn
    have hload : (findByName nameOf l (nameOf c0)).getD c0 = c0 := by
      unfold findByName
      rw [find?_eq_of_unique (List.mem_of_find?_eq_some hf) (by simp)
        (fun x hx hpx => huniq x hx (by simpa using hpx))]
      rfl
    rw [hload]
    refine ⟨find?_replaceByName nameOf hf huniq (hktap c0), ?_, hapap c0⟩
    intro x hx hn
    rcases mem_replaceByName nameOf hx with h | h
    · exact h
    · exact absurd (hn.trans (hap c0)) h.2
  | none =>
    simp only
    refine ⟨?_, ?_, hapap (mk fresh)⟩
    · rw [List.find?_append, hf]
      simp only [Option.none_or]
      exact List.find?_cons_of_pos _ (hktap (mk fresh))
    · intro x hx hn
      rcases List.mem_append.mp hx with h | h
      · rw [hap, hmk] at hn
        exact absurd hn (Nat.ne_of_lt (hb x h))
      · simpa using h

theorem upsertDoc_fix {kt : α → Bool} {ap : α → α} {mk : Nat → α} {l : List α} {fresh : Nat}
    {d : α} (hg : GoodDoc nameOf kt ap l d) :
    upsertDoc nameOf kt ap mk l fresh = ⟨l, fresh, d⟩ := by
  obtain ⟨hfind, huniq, hfix⟩ := hg
  unfold upsertDoc
  rw [hfind]
  simp only
  have hload : (findByName nameOf l (nameOf d)).getD d = d := by
    unfold findByName
    rw [find?_eq_of_unique (List.mem_of_find?_eq_some hfind) (by simp)
      (fun x hx hpx => huniq x hx (by simpa using hpx))]
    rfl
  rw [hload, hfix, replaceByName_self nameOf huniq]

theorem upsertDoc_pres {kt : α → Bool} {ap : α → α} {kt2 : α → Bool} {ap2 : α → α}
    {mk2 : Nat → α} {l : List α} {fresh : Nat} {d : α}
    (hwf : WFL nameOf l fresh) (hg : GoodDoc nameOf kt ap l d)
    (hap2 : ∀ x, nameOf (ap2 x) = nameOf x) (hmk2 : ∀ n, nameOf (mk2 n) = n)
    (hcross : ∀ x, kt (ap2 x) = false) (hktd : kt2 d = false) :
    GoodDoc nameOf kt ap (upsertDoc nameOf kt2 ap2 mk2 l fresh).docs d := by
  obtain ⟨hnd, hb⟩ := hwf
  obtain ⟨hfind, huniq, hfix⟩ := hg
  unfold upsertDoc
  cases hf : l.find? kt2 with
  | none =>
    simp only
    refine ⟨?_, ?_, hfix⟩
    · rw [List.find?_append, hfind]
      rfl
    · intro x hx hn
      rcases List.mem_append.mp hx with h | h
      · exact huniq x h hn
      · have hxd : x = ap2 (mk2 fresh) := by simpa using h
        rw [hxd, hap2, hmk2] at hn
        exact absurd hn.symm (Nat.ne_of_lt (hb d (List.mem_of_find?_eq_some hfind)))
  | some c0 =>
    simp only
    have hkt2c0 : kt2 c0 = true := List.find?_some hf
    have hc0d : c0 ≠ d := by
      intro h
      rw [h, hktd] at hkt2c0
      exact Bool.noConfusion hkt2c0
    have hnc0d : nameOf c0 ≠ nameOf d := fun h =>
      hc0d (List.inj_on_of_nodup_map hnd (List.mem_of_find?_eq_some hf)
        (List.mem_of_find?_eq_some hfind) h)
    have huniqc0 : ∀ x ∈ l, nameOf x = nameOf c0 → x = c0 := fun x hx hn =>
      List.inj_on_of_nodup_map hnd hx (List.mem_of_find?_eq_some hf) hn
    have hload : (findByName nameOf l (nameOf c0)).getD c0 = c0 := by
      unfold findByName
      rw [find?_eq_of_unique (List.mem_of_find?_eq_some hf) (by simp)
        (fun x hx hpx => huniqc0 x hx (by simpa using hpx))]
      rfl
    rw [hload]
    refine ⟨?_, ?_, hfix⟩
    · unfold replaceByName
      apply find?_map_of_fix hfind
      · rw [if_neg (fun h => hnc0d h.symm)]
      · intro x hx hpx
        by_cases hxn : nameOf x = nameOf c0
        · rw [if_pos hxn]
          exact hcross c0
        · rw [if_neg hxn]
          exact hpx
    · intro x hx hn
      rcases mem_replaceByName nameOf hx with h | h
      · exfalso
        apply hnc0d
        rw [← hn, h, hap2]
      · exact huniq x h.1 hn

end UpsertLemmas

/-! ## Store-level invariants for the customer sync -/

theorem WFL_mono {α : Type} (nameOf : α → Nat) {l : List α} {f1 f2 : Nat}
    (h : WFL nameOf l f1) (hle : f1 ≤ f2) : WFL nameOf l f2 :=
  ⟨h.1, fun x hx => lt_of_lt_of_le (h.2 x hx) hle⟩




theorem customerUpsert_others (db : DB) (r : RemoteCustomer) :
    (customerUpsert db r).1.addresses = db.addresses ∧
      (customerUpsert db r).1.contacts = db.contacts :=
  ⟨rfl, rfl⟩

theorem customerUpsert_wf (db : DB) (r : RemoteCustomer) (hwf : DBWF db) :
    DBWF (customerUpsert db r).1 ∧ db.nextName ≤ (customerUpsert db r).1.nextName := by
  obtain ⟨h1, h2, h3⟩ := hwf
  have H := @upsertDoc_wf CustomerDoc (fun c => c.name)
    (fun c => c.custom_shopify_customer_id == toString r.id) (applyCustomerFields r)
    (mkNewCustomer r) db.customers db.nextName (fun _ => rfl) (fun _ => rfl) h1
  exact ⟨⟨H.1, WFL_mono _ h2 H.2, WFL_mono _ h3 H.2⟩, H.2⟩

theorem customerUpsert_good (db : DB) (r : RemoteCustomer) (hwf : DBWF db) :
    GoodC r (customerUpsert db r).1 (customerUpsert db r).2 := by
  obtain ⟨h1, _, _⟩ := hwf
  exact @upsertDoc_good CustomerDoc (fun c => c.name)
    (fun c => c.custom_shopify_customer_id == toString r.id) (applyCustomerFields r)
    (mkNewCustomer r) db.customers db.nextName (fun _ => rfl) (fun _ => rfl)
    (fun x => by simp [applyCustomerFields]) (fun x => rfl) h1

theorem customerUpsert_fix (db : DB) (r : RemoteCustomer) (c : CustomerDoc)
    (hg : GoodC r db c) : customerUpsert db r = (db, c) := by
  have h := @upsertDoc_fix CustomerDoc (fun c => c.name)
    (fun c => c.custom_shopify_customer_id == toString r.id) (applyCustomerFields r)
    (mkNewCustomer r) db.customers db.nextName c hg
  unfold customerUpsert
  rw [h]

theorem GoodC_of_customers_eq {r : RemoteCustomer} {db db' : DB} {c : CustomerDoc}
    (he : db'.customers = db.customers) (hg : GoodC r db c) : GoodC r db' c := by
  unfold GoodC GoodDoc at *
  rw [he]
  exact hg

theorem GoodA_of_addresses_eq {cust : CustomerDoc} {a : RemoteAddress} {db db' : DB}
    (he : db'.addresses = db.addresses) (hg : GoodA cust a db) : GoodA cust a db' := by
  obtain ⟨d, hd⟩ := hg
  refine ⟨d, ?_⟩
  unfold GoodDoc at *
  rw [he]
  exact hd

theorem addrUpsert_others (cust : CustomerDoc) (db : DB) (a : RemoteAddress) :
    (create_or_update_address cust db a).customers = db.customers ∧
      (create_or_update_address cust db a).contacts = db.contacts :=
  ⟨rfl, rfl⟩

theorem addrUpsert_wf (cust : CustomerDoc) (db : DB) (a : RemoteAddress) (hwf : DBWF db) :
    DBWF (create_or_update_address cust db a) ∧
      db.nextName ≤ (create_or_update_address cust db a).nextName := by
  obtain ⟨h1, h2, h3⟩ := hwf
  have H := @upsertDoc_wf AddressDoc (fun x => x.name)
    (fun x => x.shopify_address_id == toString a.id) (applyAddressFields cust a)
    mkNewAddress db.addresses db.nextName (fun _ => rfl) (fun _ => rfl) h2
  exact ⟨⟨WFL_mono _ h1 H.2, H.1, WFL_mono _ h3 H.2⟩, H.2⟩

theorem addrUpsert_good (cust : CustomerDoc) (db : DB) (a : RemoteAddress) (hwf : DBWF db) :
    GoodA cust a (create_or_update_address cust db a) := by
  obtain ⟨_, h2, _⟩ := hwf
  exact ⟨_, @upsertDoc_good AddressDoc (fun x => x.name)
    (fun x => x.shopify_address_id == toString a.id) (applyAddressFields cust a)
    mkNewAddress db.addresses db.nextName (fun _ => rfl) (fun _ => rfl)
    (fun x => by simp [applyAddressFields]) (fun x => rfl) h2⟩

theorem addrUpsert_fix (cust : CustomerDoc) (db : DB) (a : RemoteAddress)
    (hg : GoodA cust a db) : create_or_update_address cust db a = db := by
  obtain ⟨d, hd⟩ := hg
  have h := @upsertDoc_fix AddressDoc (fun x => x.name)
    (fun x => x.shopify_address_id == toString a.id) (applyAddressFields cust a)
    mkNewAddress db.addresses db.nextName d hd
  unfold create_or_update_address
  rw [h]

theorem addrUpsert_pres (cust : CustomerDoc) (db : DB) (a b : RemoteAddress)
    (hwf : DBWF db) (hg : GoodA cust a db) (hne : toString b.id ≠ toString a.id) :
    GoodA cust a (create_or_update_address cust db b) := by
  obtain ⟨d, hd⟩ := hg
  have hdid : d.shopify_address_id = toString a.id := by
    have := congrArg AddressDoc.shopify_address_id hd.2.2
    simpa [applyAddressFields] using this.symm
  refine ⟨d, ?_⟩
  exact @upsertDoc_pres AddressDoc (fun x => x.name)
    (fun x => x.shopify_address_id == toString a.id) (applyAddressFields cust a)
    (fun x => x.shopify_address_id == toString b.id) (applyAddressFields cust b)
    mkNewAddress db.addresses db.nextName d hwf.2.1 hd (fun _ => rfl) (fun _ => rfl)
    (fun x => by simp [applyAddressFields]; exact hne)
    (by simp [hdid]; exact fun h => hne h.symm)

theorem foldA_others (cust : CustomerDoc) (l : List RemoteAddress) (db : DB) :
    (l.foldl (create_or_update_address cust) db).customers = db.customers ∧
      (l.foldl (create_or_update_address cust) db).contacts = db.contacts := by
  induction l generalizing db with
  | nil => exact ⟨rfl, rfl⟩
  | cons b t ih =>
    simp only [List.foldl_cons]
    have h := addrUpsert_others cust db b
    have h2 := ih (create_or_update_address cust db b)
    exact ⟨h2.1.trans h.1, h2.2.trans h.2⟩

theorem foldA_wf (cust : CustomerDoc) (l : List RemoteAddress) (db : DB) (hwf : DBWF db) :
    DBWF (l.foldl (create_or_update_address cust) db) ∧
      db.nextName ≤ (l.foldl (create_or_update_address cust) db).nextName := by
  induction l generalizing db with
  | nil => exact ⟨hwf, le_refl _⟩
  | cons b t ih =>
    simp only [List.foldl_cons]
    have h := addrUpsert_wf cust db b hwf
    have h2 := ih _ h.1
    exact ⟨h2.1, h.2.trans h2.2⟩

theorem foldA_pres (cust : CustomerDoc) (a : RemoteAddress) (l : List RemoteAddress) (db : DB)
    (hwf : DBWF db) (hg : GoodA cust a db)
    (hne : ∀ b ∈ l, toString b.id ≠ toString a.id) :
    GoodA cust a (l.foldl (create_or_update_address cust) db) := by
  induction l generalizing db with
  | nil => exact hg
  | cons b t ih =>
    simp only [List.foldl_cons]
    exact ih _ (addrUpsert_wf cust db b hwf).1
      (addrUpsert_pres cust db a b hwf hg (hne b (List.mem_cons_self b t)))
      fun c hc => hne c (List.mem_cons_of_mem _ hc)

theorem foldA_good (cust : CustomerDoc) (l : List RemoteAddress) (db : DB) (hwf : DBWF db)
    (hnd : (l.map fun a => toString a.id).Nodup) :
    ∀ a ∈ l, GoodA cust a (l.foldl (create_or_update_address cust) db) := by
  induction l generalizing db with
  | nil => intro a ha; cases ha
  | cons b t ih =>
    intro a ha
    simp only [List.map_cons, List.nodup_cons] at hnd
    simp only [List.foldl_cons]
    have hwf2 := (addrUpsert_wf cust db b hwf).1
    rcases List.mem_cons.mp ha with h | h
    · subst h
      apply foldA_pres cust a t _ hwf2 (addrUpsert_good cust db a hwf)
      intro c hc heq
      exact hnd.1 (List.mem_map.mpr ⟨c, hc, heq⟩)
    · exact ih _ hwf2 hnd.2 a h

theorem foldA_fix (cust : CustomerDoc) (l : List RemoteAddress) (db : DB)
    (hall : ∀ a ∈ l, GoodA cust a db) :
    l.foldl (create_or_update_address cust) db = db := by
  induction l with
  | nil => rfl
  | cons b t ih =>
    simp only [List.foldl_cons]
    rw [addrUpsert_fix cust db b (hall b (List.mem_cons_self b t))]
    exact ih fun a ha => hall a (List.mem_cons_of_mem _ ha)


theorem applyContactFields_idem (cust : CustomerDoc) (r : RemoteCustomer) (p : String)
    (x : ContactDoc) :
    applyContactFields cust r p (applyContactFields cust r p x) = applyContactFields cust r p x := by
  cases htr : truthy r.email <;> simp [applyContactFields, htr]

theorem contactUpsert_others (cust : CustomerDoc) (r : RemoteCustomer) (p : String) (db : DB) :
    (contactUpsert cust r p db).customers = db.customers ∧
      (contactUpsert cust r p db).addresses = db.addresses :=
  ⟨rfl, rfl⟩

theorem contactUpsert_wf (cust : CustomerDoc) (r : RemoteCustomer) (p : String) (db : DB)
    (hwf : DBWF db) :
    DBWF (contactUpsert cust r p db) ∧ db.nextName ≤ (contactUpsert cust r p db).nextName := by
  obtain ⟨h1, h2, h3⟩ := hwf
  have H := @upsertDoc_wf ContactDoc (fun x => x.name) (fun x => x.phone == p)
    (applyContactFields cust r p) mkNewContact db.contacts db.nextName
    (fun _ => rfl) (fun _ => rfl) h3
  exact ⟨⟨WFL_mono _ h1 H.2, WFL_mono _ h2 H.2, H.1⟩, H.2⟩

theorem contactUpsert_good (cust : CustomerDoc) (r : RemoteCustomer) (p : String) (db : DB)
    (hwf : DBWF db) : GoodK cust r p (contactUpsert cust r p db) := by
  exact ⟨_, @upsertDoc_good ContactDoc (fun x => x.name) (fun x => x.phone == p)
    (applyContactFields cust r p) mkNewContact db.contacts db.nextName
    (fun _ => rfl) (fun _ => rfl) (fun x => by simp [applyContactFields])
    (applyContactFields_idem cust r p) hwf.2.2⟩

theorem contactUpsert_fix (cust : CustomerDoc) (r : RemoteCustomer) (p : String) (db : DB)
    (hg : GoodK cust r p db) : contactUpsert cust r p db = db := by
  obtain ⟨d, hd⟩ := hg
  have h := @upsertDoc_fix ContactDoc (fun x => x.name) (fun x => x.phone == p)
    (applyContactFields cust r p) mkNewContact db.contacts db.nextName d hd
  unfold contactUpsert
  rw [h]

theorem contact_others (cust : CustomerDoc) (r : RemoteCustomer) (db : DB) :
    (handle_customer_contacts cust r db).customers = db.customers ∧
      (handle_customer_contacts cust r db).addresses = db.addresses := by
  cases hp : r.phone with
  | none =>
    simp only [handle_customer_contacts, hp]
    exact ⟨trivial, trivial⟩
  | some p =>
    by_cases hpe : p = ""
    · simp only [handle_customer_contacts, hp, if_pos hpe]
      exact ⟨trivial, trivial⟩
    · simp only [handle_customer_contacts, hp, if_neg hpe]
      exact contactUpsert_others cust r p db

theorem contact_wf (cust : CustomerDoc) (r : RemoteCustomer) (db : DB) (hwf : DBWF db) :
    DBWF (handle_customer_contacts cust r db) ∧
      db.nextName ≤ (handle_customer_contacts cust r db).nextName := by
  cases hp : r.phone with
  | none =>
    simp only [handle_customer_contacts, hp]
    exact ⟨hwf, le_refl _⟩
  | some p =>
    by_cases hpe : p = ""
    · simp only [handle_customer_contacts, hp, if_pos hpe]
      exact ⟨hwf, le_refl _⟩
    · simp only [handle_customer_contacts, hp, if_neg hpe]
      exact contactUpsert_wf cust r p db hwf

theorem contact_dbl (cust : CustomerDoc) (r : RemoteCustomer) (db : DB) (hwf : DBWF db) :
    handle_customer_contacts cust r (handle_customer_contacts cust r db) =
      handle_customer_contacts cust r db := by
  cases hp : r.phone with
  | none => simp only [handle_customer_contacts, hp]
  | some p =>
    by_cases hpe : p = ""
    · simp only [handle_customer_contacts, hp, if_pos hpe]
    · simp only [handle_customer_contacts, hp, if_neg hpe]
      exact contactUpsert_fix cust r p _ (contactUpsert_good cust r p db hwf)

/-- C2: running `create_or_update_customer` twice with the same remote
record yields the same local store as running it once — the second run
finds the existing Customer by `custom_shopify_customer_id`, each Address
by `shopify_address_id` and the Contact by phone, updates them in place
and creates no new documents (stated for a well-formed store and a record
whose address ids are distinct). -/
theorem create_or_update_customer_idem (db : DB) (r : RemoteCustomer) (hwf : DBWF db)
    (hnd : (r.addresses.map fun a => toString a.id).Nodup) :
    create_or_update_customer (create_or_update_customer db r) r =
      create_or_update_customer db r := by
  have hcu := customerUpsert_good db r hwf
  have hwf1 := (customerUpsert_wf db r hwf).1
  set db1 := (customerUpsert db r).1 with hdb1
  set c := (customerUpsert db r).2 with hc
  set db2 := handle_customer_addresses c db1 r with hdb2
  set db3 := handle_customer_contacts c r db2 with hdb3
  have hrun1 : create_or_update_customer db r = db3 := rfl
  have hwf2 : DBWF db2 := (foldA_wf c r.addresses db1 hwf1).1
  have hwf3 : DBWF db3 := (contact_wf c r db2 hwf2).1
  have hc3 : GoodC r db3 c := by
    apply GoodC_of_customers_eq _ hcu
    calc db3.customers = db2.customers := (contact_others c r db2).1
      _ = db1.customers := (foldA_others c r.addresses db1).1
  have ha3 : ∀ a ∈ r.addresses, GoodA c a db3 :=
    fun a ha => GoodA_of_addresses_eq (contact_others c r db2).2
      (foldA_good c r.addresses db1 hwf1 hnd a ha)
  have hcu2 : customerUpsert db3 r = (db3, c) := customerUpsert_fix db3 r c hc3
  have hfold2 : handle_customer_addresses c db3 r = db3 := foldA_fix c r.addresses db3 ha3
  have hk2 : handle_customer_contacts c r db3 = db3 := by
    rw [hdb3]
    exact contact_dbl c r db2 hwf2
  rw [hrun1]
  unfold create_or_update_customer
  rw [hcu2]
  show handle_customer_contacts c r (handle_customer_addresses c db3 r) = db3
  rw [hfold2, hk2]

/-! ## Claim C1: webhook signature gate -/

/-- C1: the inbound webhook handler processes the payload if and only if
the header-supplied signature equals the base64 encoding of the
HMAC-SHA256 digest of the raw body under the shared secret; on mismatch
it rejects (logs and raises) without processing, so a tampered body kept
with the old signature is rejected whenever their digests differ, and an
unmodified body with its correct signature is accepted. -/
theorem store_request_data_hmac_gate (secret body header : List Nat) (event : String) :
    (store_request_data secret body header event = .processed body event ↔
      header = computeSig secret body) ∧
    (store_request_data secret body header event = .rejectedAndLogged ↔
      header ≠ computeSig secret body) := by
  unfold store_request_data
  rcases eq_or_ne (computeSig secret body) header with h | h
  · subst h
    simp
  · rw [if_neg h]
    simp [Ne.symm h]

/-! ## Claim C3: pagination follows the next cursor and concatenates pages -/

theorem connFetchLoop_spec (init : List FetchResp) (last : FetchResp) :
    ∀ (cur : Option String) (acc : List RemoteCustomer) (trace : List ReqParams),
    (∀ p ∈ init ++ [last], p.status = 200) →
    (∀ p ∈ init, p.linkNext.isSome) → last.linkNext = none →
    ∃ tr, connFetchLoop (init ++ [last]) cur acc trace =
        .ok (acc ++ (init ++ [last]).flatMap (fun p => p.customers), trace ++ tr) ∧
      tr.length = init.length + 1 ∧ ∀ q ∈ tr, q.limit = 250 := by
  induction init with
  | nil =>
    intro cur acc trace hok hnext hlast
    have hst : last.status = 200 := hok last (by simp)
    refine ⟨[⟨250, cur⟩], ?_, rfl, ?_⟩
    · simp [connFetchLoop, hst, hlast]
    · intro q hq
      simp only [List.mem_singleton] at hq
      rw [hq]
  | cons p t ih =>
    intro cur acc trace hok hnext hlast
    have hst : p.status = 200 := hok p (by simp)
    obtain ⟨tok, htok⟩ := Option.isSome_iff_exists.mp (hnext p (by simp))
    obtain ⟨tr, htr, hlen, hlim⟩ := ih (some tok) (acc ++ p.customers) (trace ++ [⟨250, cur⟩])
      (fun q hq => hok q (by simpa using Or.inr (by simpa using hq)))
      (fun q hq => hnext q (List.mem_cons_of_mem _ hq)) hlast
    refine ⟨⟨250, cur⟩ :: tr, ?_, by simp [hlen], ?_⟩
    · show connFetchLoop (p :: (t ++ [last])) cur acc trace = _
      simp only [connFetchLoop, hst, htok, ne_eq, not_true_eq_false, if_false]
      rw [htr]
      simp [List.append_assoc]
    · intro q hq
      rcases List.mem_cons.mp hq with h | h
      · rw [h]
      · exact hlim q h

theorem requestsFetchLoop_spec (init : List FetchResp) (last : FetchResp) :
    ∀ (acc : List RemoteCustomer) (trace : List Nat),
    (∀ p ∈ init ++ [last], p.status = 200) →
    (∀ p ∈ init, p.linkNext.isSome) → last.linkNext = none →
    requestsFetchLoop (init ++ [last]) acc trace =
      .ok (acc ++ (init ++ [last]).flatMap (fun p => p.customers),
        trace ++ List.replicate (init.length + 1) 250) := by
  induction init with
  | nil =>
    intro acc trace hok hnext hlast
    have hst : last.status = 200 := hok last (by simp)
    simp [requestsFetchLoop, hst, hlast]
  | cons p t ih =>
    intro acc trace hok hnext hlast
    have hst : p.status = 200 := hok p (by simp)
    obtain ⟨tok, htok⟩ := Option.isSome_iff_exists.mp (hnext p (by simp))
    show requestsFetchLoop (p :: (t ++ [last])) acc trace = _
    simp only [requestsFetchLoop, hst, htok, if_true]
    rw [ih (acc ++ p.customers) (trace ++ [250])
      (fun q hq => hok q (by simpa using Or.inr (by simpa using hq)))
      (fun q hq => hnext q (List.mem_cons_of_mem _ hq)) hlast]
    simp [List.flatMap_cons, List.append_assoc, List.replicate_succ]

/-- C3: over a well-formed page sequence (each page at most 250 records,
every page but the last carrying a next cursor, the last carrying none),
both `get_shopify_customers` variants request `limit = 250` on every call,
follow the cursor until absent, terminate, and return exactly the
concatenation of the pages' customer lists in order — one request per
page. -/
theorem get_shopify_customers_pagination (init : List FetchResp) (last : FetchResp)
    (hok : ∀ p ∈ init ++ [last], p.status = 200 ∧ p.customers.length ≤ 250)
    (hnext : ∀ p ∈ init, p.linkNext.isSome)
    (hlast : last.linkNext = none) :
    (∃ tr, connection_get_shopify_customers (init ++ [last]) =
        .ok ((init ++ [last]).flatMap (fun p => p.customers), tr) ∧
      tr.length = init.length + 1 ∧ ∀ q ∈ tr, q.limit = 250) ∧
    requests_get_shopify_customers (init ++ [last]) =
      .ok ((init ++ [last]).flatMap (fun p => p.customers),
        List.replicate (init.length + 1) 250) := by
  constructor
  · obtain ⟨tr, htr, hlen, hlim⟩ := connFetchLoop_spec init last none [] []
      (fun p hp => (hok p hp).1) hnext hlast
    exact ⟨tr, by simpa using htr, hlen, hlim⟩
  · have h := requestsFetchLoop_spec init last [] []
      (fun p hp => (hok p hp).1) hnext hlast
    simpa using h

/-- Witness for C3 at a concrete two-page sequence. -/
theorem get_shopify_customers_pagination_witness :
    (∀ p ∈ [(⟨200, "", [⟨1, none, none, none, none, []⟩], some "pg2"⟩ : FetchResp)] ++
        [(⟨200, "", [⟨2, none, none, none, none, []⟩], none⟩ : FetchResp)],
      p.status = 200 ∧ p.customers.length ≤ 250) ∧
    ((∃ tr, connection_get_shopify_customers
        ([(⟨200, "", [⟨1, none, none, none, none, []⟩], some "pg2"⟩ : FetchResp)] ++
          [(⟨200, "", [⟨2, none, none, none, none, []⟩], none⟩ : FetchResp)]) =
        .ok (([(⟨200, "", [⟨1, none, none, none, none, []⟩], some "pg2"⟩ : FetchResp)] ++
          [(⟨200, "", [⟨2, none, none, none, none, []⟩], none⟩ : FetchResp)]).flatMap
            (fun p => p.customers), tr) ∧
      tr.length = 1 + 1 ∧ ∀ q ∈ tr, q.limit = 250) ∧
    requests_get_shopify_customers
        ([(⟨200, "", [⟨1, none, none, none, none, []⟩], some "pg2"⟩ : FetchResp)] ++
          [(⟨200, "", [⟨2, none, none, none, none, []⟩], none⟩ : FetchResp)]) =
      .ok (([(⟨200, "", [⟨1, none, none, none, none, []⟩], some "pg2"⟩ : FetchResp)] ++
          [(⟨200, "", [⟨2, none, none, none, none, []⟩], none⟩ : FetchResp)]).flatMap
            (fun p => p.customers), List.replicate (1 + 1) 250)) :=
  ⟨by decide, get_shopify_customers_pagination _ _ (by decide) (by decide) (by decide)⟩

/-- Witness for C2 at a concrete store and remote record. -/
theorem create_or_update_customer_idem_witness :
    DBWF ⟨[], [], [], 0⟩ ∧
    (((⟨7, some "Ann", some "Lee", some "ann@example.com", some "123",
        [⟨10, true, some "1 Main St", none, some "Metropolis", none, none, some "US", some "123"⟩]⟩ :
        RemoteCustomer).addresses.map fun a => toString a.id).Nodup) ∧
    create_or_update_customer
        (create_or_update_customer ⟨[], [], [], 0⟩
          ⟨7, some "Ann", some "Lee", some "ann@example.com", some "123",
            [⟨10, true, some "1 Main St", none, some "Metropolis", none, none, some "US", some "123"⟩]⟩)
        ⟨7, some "Ann", some "Lee", some "ann@example.com", some "123",
          [⟨10, true, some "1 Main St", none, some "Metropolis", none, none, some "US", some "123"⟩]⟩ =
      create_or_update_customer ⟨[], [], [], 0⟩
        ⟨7, some "Ann", some "Lee", some "ann@example.com", some "123",
          [⟨10, true, some "1 Main St", none, some "Metropolis", none, none, some "US", some "123"⟩]⟩ :=
  ⟨by decide, by decide, create_or_update_customer_idem _ _ (by decide) (by decide)⟩

/-! ## Facts about `sync_all_customers` -/

theorem procDB_append (f : DB → RemoteCustomer → Except String DB)
    (a b : List RemoteCustomer) (db : DB) :
    procDB f (a ++ b) db = procDB f b (procDB f a db) := by
  simp [procDB, List.foldl_append]

theorem fetchPhase_err (good : List FetchResp) (bad : FetchResp) (rest : List FetchResp) :
    ∀ (acc : List RemoteCustomer) (logs : List LogEntry),
    (∀ p ∈ good, p.status = 200 ∧ p.linkNext.isSome) → bad.status ≠ 200 →
    fetchPhase (good ++ bad :: rest) acc logs =
      (acc ++ good.flatMap (fun p => p.customers), logs ++ [.errorLog
        (("Shopify API Error: " ++ toString bad.status ++ " - " ++ bad.text).take 140)
        "Shopify Customer Fetch Error"]) := by
  induction good with
  | nil =>
    intro acc logs _ hbad
    simp [fetchPhase, hbad]
  | cons p t ih =>
    intro acc logs hgood hbad
    obtain ⟨hst, hnx⟩ := hgood p (by simp)
    obtain ⟨tok, htok⟩ := Option.isSome_iff_exists.mp hnx
    show fetchPhase (p :: (t ++ bad :: rest)) acc logs = _
    simp only [fetchPhase, hst, htok, if_true]
    rw [ih (acc ++ p.customers) logs (fun q hq => hgood q (List.mem_cons_of_mem _ hq)) hbad]
    simp [List.append_assoc]

theorem foldPR_fst (f : DB → RemoteCustomer → Except String DB) (l : List RemoteCustomer) :
    ∀ st : DB × List LogEntry, (l.foldl (processRecord f) st).1 = procDB f l st.1 := by
  induction l with
  | nil => intro st; rfl
  | cons c t ih =>
    intro st
    simp only [List.foldl_cons]
    cases hfc : f st.1 c with
    | ok d2 =>
      rw [show processRecord f st c = (d2, st.2) by simp [processRecord, hfc]]
      rw [ih]
      simp [procDB, hfc]
    | error e =>
      rw [show processRecord f st c = (st.1, st.2 ++ [.errorLog
          (("Shopify Customer Import Error for ID " ++ toString c.id ++ ": " ++ e).take 140)
          "Shopify Customer Import Error"]) by simp [processRecord, hfc]]
      rw [ih]
      simp [procDB, hfc]

theorem foldPR_logs (f : DB → RemoteCustomer → Except String DB) (l : List RemoteCustomer) :
    ∀ st : DB × List LogEntry, ∃ tail, (l.foldl (processRecord f) st).2 = st.2 ++ tail := by
  induction l with
  | nil => intro st; exact ⟨[], by simp⟩
  | cons c t ih =>
    intro st
    simp only [List.foldl_cons]
    cases hfc : f st.1 c with
    | ok d2 =>
      rw [show processRecord f st c = (d2, st.2) by simp [processRecord, hfc]]
      obtain ⟨tail, htail⟩ := ih (d2, st.2)
      exact ⟨tail, htail⟩
    | error e =>
      rw [show processRecord f st c = (st.1, st.2 ++ [.errorLog
          (("Shopify Customer Import Error for ID " ++ toString c.id ++ ": " ++ e).take 140)
          "Shopify Customer Import Error"]) by simp [processRecord, hfc]]
      obtain ⟨tail, htail⟩ := ih (st.1, st.2 ++ [.errorLog
          (("Shopify Customer Import Error for ID " ++ toString c.id ++ ": " ++ e).take 140)
          "Shopify Customer Import Error"])
      refine ⟨[LogEntry.errorLog
          (("Shopify Customer Import Error for ID " ++ toString c.id ++ ": " ++ e).take 140)
          "Shopify Customer Import Error"] ++ tail, ?_⟩
      rw [htail]
      simp [List.append_assoc]

theorem processBatches_fst_aux (f : DB → RemoteCustomer → Except String DB) (total : Nat) :
    ∀ (n : Nat) (l : List RemoteCustomer), l.length ≤ n →
    ∀ (processed : Nat) (st : DB × List LogEntry),
    (processBatches f total l processed st).1 = procDB f l st.1 := by
  intro n
  induction n with
  | zero =>
    intro l hl processed st
    have hnil : l = [] := List.length_eq_zero.mp (Nat.le_zero.mp hl)
    subst hnil
    unfold processBatches
    simp [procDB]
  | succ n ih =>
    intro l hl processed st
    by_cases h : l = []
    · subst h
      unfold processBatches
      simp [procDB]
    · unfold processBatches
      rw [dif_neg h]
      have hd : (l.drop 1000).length ≤ n := by
        have hpos : 0 < l.length := List.length_pos.mpr h
        simp only [List.length_drop]
        omega
      rw [ih _ hd]
      show procDB f (l.drop 1000) ((l.take 1000).foldl (processRecord f) st).1 = _
      rw [foldPR_fst]
      conv_rhs => rw [← List.take_append_drop 1000 l]
      rw [procDB_append]

theorem processBatches_logs_aux (f : DB → RemoteCustomer → Except String DB) (total : Nat) :
    ∀ (n : Nat) (l : List RemoteCustomer), l.length ≤ n →
    ∀ (processed : Nat) (st : DB × List LogEntry),
    ∃ tail, (processBatches f total l processed st).2 = st.2 ++ tail := by
  intro n
  induction n with
  | zero =>
    intro l hl processed st
    have hnil : l = [] := List.length_eq_zero.mp (Nat.le_zero.mp hl)
    subst hnil
    unfold processBatches
    exact ⟨[], by simp⟩
  | succ n ih =>
    intro l hl processed st
    by_cases h : l = []
    · subst h
      unfold processBatches
      exact ⟨[], by simp⟩
    · unfold processBatches
      rw [dif_neg h]
      have hd : (l.drop 1000).length ≤ n := by
        have hpos : 0 < l.length := List.length_pos.mpr h
        simp only [List.length_drop]
        omega
      obtain ⟨t1, ht1⟩ := foldPR_logs f (l.take 1000) st
      obtain ⟨t2, ht2⟩ := ih (l.drop 1000) hd (processed + 1000)
        (((l.take 1000).foldl (processRecord f) st).1,
          ((l.take 1000).foldl (processRecord f) st).2 ++ [.infoLog
            ("Processed " ++ toString (processed + 1000) ++ " / " ++ toString total ++ " customers.")])
      refine ⟨t1 ++ [.infoLog
        ("Processed " ++ toString (processed + 1000) ++ " / " ++ toString total ++ " customers.")] ++ t2, ?_⟩
      rw [ht2]
      simp only [ht1]
      simp [List.append_assoc]

theorem sync_all_err (f : DB → RemoteCustomer → Except String DB) (good : List FetchResp)
    (bad : FetchResp) (rest : List FetchResp) (db : DB)
    (hgood : ∀ p ∈ good, p.status = 200 ∧ p.linkNext.isSome) (hbad : bad.status ≠ 200) :
    (sync_all_customers_with f (good ++ bad :: rest) db).ret = () ∧
    (sync_all_customers_with f (good ++ bad :: rest) db).db =
      procDB f (good.flatMap fun p => p.customers) db ∧
    LogEntry.errorLog (("Shopify API Error: " ++ toString bad.status ++ " - " ++ bad.text).take 140)
        "Shopify Customer Fetch Error" ∈ (sync_all_customers_with f (good ++ bad :: rest) db).logs := by
  have hfp := fetchPhase_err good bad rest [] [] hgood hbad
  refine ⟨rfl, ?_, ?_⟩
  · show (processBatches f (fetchPhase (good ++ bad :: rest) [] []).1.length
        (fetchPhase (good ++ bad :: rest) [] []).1 0
        (db, (fetchPhase (good ++ bad :: rest) [] []).2 ++ [.infoLog
          ("Total customers fetched: " ++
            toString (fetchPhase (good ++ bad :: rest) [] []).1.length ++
            ". Starting processing.")])).1 = _
    rw [hfp]
    rw [processBatches_fst_aux f _ _ _ (le_refl _)]
    simp
  · show _ ∈ (processBatches f (fetchPhase (good ++ bad :: rest) [] []).1.length
        (fetchPhase (good ++ bad :: rest) [] []).1 0
        (db, (fetchPhase (good ++ bad :: rest) [] []).2 ++ [.infoLog
          ("Total customers fetched: " ++
            toString (fetchPhase (good ++ bad :: rest) [] []).1.length ++
            ". Starting processing.")])).2 ++ [.infoLog "Completed syncing all Shopify customers."]
    rw [hfp]
    obtain ⟨tail, htail⟩ := processBatches_logs_aux f
      ([] ++ good.flatMap fun p => p.customers).length
      ([] ++ good.flatMap fun p => p.customers).length _ (le_refl _) 0
      (db, ([] ++ [LogEntry.errorLog
          (("Shopify API Error: " ++ toString bad.status ++ " - " ++ bad.text).take 140)
          "Shopify Customer Fetch Error"]) ++ [.infoLog
        ("Total customers fetched: " ++
          toString ([] ++ good.flatMap fun p => p.customers).length ++ ". Starting processing.")])
    rw [htail]
    simp

/-! ## Claim C9: a mid-fetch failure in `sync_all_customers` yields a
silent partial import -/

/-- C9: when a page fetch returns a non-200 status, `sync_all_customers`
only logs the truncated error and stops the pagination loop; the customers
collected from the earlier pages are still processed and committed, and
the function returns normally (`None`). -/
theorem sync_all_customers_partial_on_fetch_error (good : List FetchResp) (bad : FetchResp)
    (rest : List FetchResp) (db : DB)
    (hgood : ∀ p ∈ good, p.status = 200 ∧ p.linkNext.isSome) (hbad : bad.status ≠ 200) :
    (sync_all_customers (good ++ bad :: rest) db).ret = () ∧
    (sync_all_customers (good ++ bad :: rest) db).db =
      procDB shopifyMapper (good.flatMap fun p => p.customers) db ∧
    LogEntry.errorLog (("Shopify API Error: " ++ toString bad.status ++ " - " ++ bad.text).take 140)
        "Shopify Customer Fetch Error" ∈ (sync_all_customers (good ++ bad :: rest) db).logs :=
  sync_all_err shopifyMapper good bad rest db hgood hbad

/-- Witness for C9 at a concrete run: one good page, then a 500. -/
theorem sync_all_customers_partial_on_fetch_error_witness :
    (∀ p ∈ [(⟨200, "", [⟨1, some "Ann", none, none, none, []⟩], some "t"⟩ : FetchResp)],
      p.status = 200 ∧ p.linkNext.isSome) ∧
    ((⟨500, "boom", [], none⟩ : FetchResp).status ≠ 200) ∧
    ((sync_all_customers
        ([(⟨200, "", [⟨1, some "Ann", none, none, none, []⟩], some "t"⟩ : FetchResp)] ++
          (⟨500, "boom", [], none⟩ : FetchResp) :: []) ⟨[], [], [], 0⟩).ret = () ∧
      (sync_all_customers
        ([(⟨200, "", [⟨1, some "Ann", none, none, none, []⟩], some "t"⟩ : FetchResp)] ++
          (⟨500, "boom", [], none⟩ : FetchResp) :: []) ⟨[], [], [], 0⟩).db =
        procDB shopifyMapper
          ([(⟨200, "", [⟨1, some "Ann", none, none, none, []⟩], some "t"⟩ : FetchResp)].flatMap
            fun p => p.customers) ⟨[], [], [], 0⟩ ∧
      LogEntry.errorLog (("Shopify API Error: " ++ toString (⟨500, "boom", [], none⟩ :
          FetchResp).status ++ " - " ++ (⟨500, "boom", [], none⟩ : FetchResp).text).take 140)
          "Shopify Customer Fetch Error" ∈
        (sync_all_customers
          ([(⟨200, "", [⟨1, some "Ann", none, none, none, []⟩], some "t"⟩ : FetchResp)] ++
            (⟨500, "boom", [], none⟩ : FetchResp) :: []) ⟨[], [], [], 0⟩).logs) :=
  ⟨by decide, by decide,
    sync_all_customers_partial_on_fetch_error _ _ _ _ (by decide) (by decide)⟩

/-! ## Claim C4: abort-on-error holds for the raw fetchers but not for
`sync_all_customers` -/

theorem connFetchLoop_err (good : List FetchResp) (bad : FetchResp) (rest : List FetchResp) :
    ∀ (cur : Option String) (acc : List RemoteCustomer) (trace : List ReqParams),
    (∀ p ∈ good, p.status = 200 ∧ p.linkNext.isSome) → bad.status ≠ 200 →
    connFetchLoop (good ++ bad :: rest) cur acc trace =
      .error ("Error fetching customers from Shopify: " ++ bad.text) := by
  induction good with
  | nil =>
    intro cur acc trace _ hbad
    simp [connFetchLoop, hbad]
  | cons p t ih =>
    intro cur acc trace hgood hbad
    obtain ⟨hst, hnx⟩ := hgood p (by simp)
    obtain ⟨tok, htok⟩ := Option.isSome_iff_exists.mp hnx
    show connFetchLoop (p :: (t ++ bad :: rest)) cur acc trace = _
    simp only [connFetchLoop, hst, htok, ne_eq, not_true_eq_false, if_false]
    exact ih _ _ _ (fun q hq => hgood q (List.mem_cons_of_mem _ hq)) hbad

theorem requestsFetchLoop_err (good : List FetchResp) (bad : FetchResp) (rest : List FetchResp) :
    ∀ (acc : List RemoteCustomer) (trace : List Nat),
    (∀ p ∈ good, p.status = 200 ∧ p.linkNext.isSome) → bad.status ≠ 200 →
    requestsFetchLoop (good ++ bad :: rest) acc trace =
      .error ("Error fetching customers from Shopify: " ++ bad.text) := by
  induction good with
  | nil =>
    intro acc trace _ hbad
    simp [requestsFetchLoop, hbad]
  | cons p t ih =>
    intro acc trace hgood hbad
    obtain ⟨hst, hnx⟩ := hgood p (by simp)
    obtain ⟨tok, htok⟩ := Option.isSome_iff_exists.mp hnx
    show requestsFetchLoop (p :: (t ++ bad :: rest)) acc trace = _
    simp only [requestsFetchLoop, hst, htok, if_true]
    exact ih _ _ (fun q hq => hgood q (List.mem_cons_of_mem _ hq)) hbad

/-- C4 counterexample: with one 200 page followed by a 500,
`sync_all_customers` still processes the first page's customer (the final
store holds one Customer document) and returns normally — so it is not
true that every fetch variant aborts with no partial list processed. -/
theorem fetch_abort_counterexample :
    (sync_all_customers
      ([(⟨200, "", [⟨1, some "Ann", none, none, none, []⟩], some "t"⟩ : FetchResp)] ++
        (⟨500, "boom", [], none⟩ : FetchResp) :: [])
      ⟨[], [], [], 0⟩).db.customers.length = 1 ∧
    (sync_all_customers
      ([(⟨200, "", [⟨1, some "Ann", none, none, none, []⟩], some "t"⟩ : FetchResp)] ++
        (⟨500, "boom", [], none⟩ : FetchResp) :: [])
      ⟨[], [], [], 0⟩).ret = () := by
  have h := sync_all_err shopifyMapper
    [(⟨200, "", [⟨1, some "Ann", none, none, none, []⟩], some "t"⟩ : FetchResp)]
    (⟨500, "boom", [], none⟩ : FetchResp) [] ⟨[], [], [], 0⟩ (by decide) (by decide)
  refine ⟨?_, rfl⟩
  unfold sync_all_customers
  rw [h.2.1]
  decide

/-- C4 amended: a non-200 status aborts the two `get_shopify_customers`
fetchers with an error and no partial result, but `sync_all_customers`
instead logs the error, stops fetching, and processes the customers
already collected. -/
theorem fetch_abort_policy_amended (good : List FetchResp) (bad : FetchResp)
    (rest : List FetchResp)
    (hgood : ∀ p ∈ good, p.status = 200 ∧ p.linkNext.isSome) (hbad : bad.status ≠ 200) :
    connection_get_shopify_customers (good ++ bad :: rest) =
      .error ("Error fetching customers from Shopify: " ++ bad.text) ∧
    requests_get_shopify_customers (good ++ bad :: rest) =
      .error ("Error fetching customers from Shopify: " ++ bad.text) ∧
    ∀ (f : DB → RemoteCustomer → Except String DB) (db : DB),
      (sync_all_customers_with f (good ++ bad :: rest) db).db =
        procDB f (good.flatMap fun p => p.customers) db :=
  ⟨connFetchLoop_err good bad rest none [] [] hgood hbad,
   requestsFetchLoop_err good bad rest [] [] hgood hbad,
   fun f db => (sync_all_err f good bad rest db hgood hbad).2.1⟩

/-- Witness for the amended C4 at a concrete run. -/
theorem fetch_abort_policy_amended_witness :
    (∀ p ∈ [(⟨200, "", [⟨1, some "Ann", none, none, none, []⟩], some "t"⟩ : FetchResp)],
      p.status = 200 ∧ p.linkNext.isSome) ∧
    ((⟨500, "boom", [], none⟩ : FetchResp).status ≠ 200) ∧
    (connection_get_shopify_customers
        ([(⟨200, "", [⟨1, some "Ann", none, none, none, []⟩], some "t"⟩ : FetchResp)] ++
          (⟨500, "boom", [], none⟩ : FetchResp) :: []) =
      .error ("Error fetching customers from Shopify: " ++
        (⟨500, "boom", [], none⟩ : FetchResp).text) ∧
    requests_get_shopify_customers
        ([(⟨200, "", [⟨1, some "Ann", none, none, none, []⟩], some "t"⟩ : FetchResp)] ++
          (⟨500, "boom", [], none⟩ : FetchResp) :: []) =
      .error ("Error fetching customers from Shopify: " ++
        (⟨500, "boom", [], none⟩ : FetchResp).text) ∧
    ∀ (f : DB → RemoteCustomer → Except String DB) (db : DB),
      (sync_all_customers_with f
          ([(⟨200, "", [⟨1, some "Ann", none, none, none, []⟩], some "t"⟩ : FetchResp)] ++
            (⟨500, "boom", [], none⟩ : FetchResp) :: []) db).db =
        procDB f
          ([(⟨200, "", [⟨1, some "Ann", none, none, none, []⟩], some "t"⟩ :
            FetchResp)].flatMap fun p => p.customers) db) :=
  ⟨by decide, by decide, fetch_abort_policy_amended _ _ _ (by decide) (by decide)⟩

/-! ## Claim C5: per-record exceptions are caught, logged and skipped -/

/-- C5: an exception raised while mapping one record is caught by the
batch loop, logged with the truncated message under
`Shopify Customer Import Error`, and the loop continues: the records after
the failing one are processed exactly as if it were absent.  In
particular, a record with no phone does not even raise — the source
mapper always succeeds on it. -/
theorem per_record_errors_are_skipped (f : DB → RemoteCustomer → Except String DB)
    (total processed : Nat) (xs ys : List RemoteCustomer) (bad : RemoteCustomer)
    (db : DB) (logs logs0 : List LogEntry) (e : String)
    (hbad : f (procDB f xs db) bad = .error e) :
    processRecord f (procDB f xs db, logs0) bad =
      (procDB f xs db, logs0 ++ [.errorLog (("Shopify Customer Import Error for ID " ++
        toString bad.id ++ ": " ++ e).take 140) "Shopify Customer Import Error"]) ∧
    (processBatches f total (xs ++ bad :: ys) processed (db, logs)).1 =
      procDB f (xs ++ ys) db ∧
    ∀ r : RemoteCustomer, r.phone = none →
      shopifyMapper db r = .ok (create_or_update_customer db r) := by
  refine ⟨by simp [processRecord, hbad], ?_, fun r _ => rfl⟩
  rw [processBatches_fst_aux f total (xs ++ bad :: ys).length _ (le_refl _)]
  show procDB f (xs ++ bad :: ys) db = _
  rw [procDB_append, procDB_append]
  show procDB f ys (match f (procDB f xs db) bad with | .ok d2 => d2 | .error _ => procDB f xs db) = _
  rw [hbad]

/-- Witness for C5: a mapper failing on the middle record of three. -/
theorem per_record_errors_are_skipped_witness :
    ((fun _ r => if r.id = 2 then Except.error "boom" else
        Except.ok (⟨[], [], [], 5⟩ : DB)) (procDB (fun _ r => if r.id = 2 then .error "boom" else
          .ok (⟨[], [], [], 5⟩ : DB)) [⟨1, none, none, none, none, []⟩] ⟨[], [], [], 0⟩)
        (⟨2, none, none, none, none, []⟩ : RemoteCustomer) = Except.error "boom") ∧
    (processRecord (fun _ r => if r.id = 2 then .error "boom" else .ok (⟨[], [], [], 5⟩ : DB))
        (procDB (fun _ r => if r.id = 2 then .error "boom" else .ok (⟨[], [], [], 5⟩ : DB))
          [⟨1, none, none, none, none, []⟩] ⟨[], [], [], 0⟩, [])
        (⟨2, none, none, none, none, []⟩ : RemoteCustomer) =
      (procDB (fun _ r => if r.id = 2 then .error "boom" else .ok (⟨[], [], [], 5⟩ : DB))
          [⟨1, none, none, none, none, []⟩] ⟨[], [], [], 0⟩,
        [] ++ [.errorLog (("Shopify Customer Import Error for ID " ++
          toString (⟨2, none, none, none, none, []⟩ : RemoteCustomer).id ++ ": " ++
          "boom").take 140) "Shopify Customer Import Error"]) ∧
    (processBatches (fun _ r => if r.id = 2 then .error "boom" else .ok (⟨[], [], [], 5⟩ : DB)) 3
        ([⟨1, none, none, none, none, []⟩] ++ (⟨2, none, none, none, none, []⟩ : RemoteCustomer) ::
          [⟨3, none, none, none, none, []⟩]) 0 (⟨[], [], [], 0⟩, [])).1 =
      procDB (fun _ r => if r.id = 2 then .error "boom" else .ok (⟨[], [], [], 5⟩ : DB))
        ([⟨1, none, none, none, none, []⟩] ++ [⟨3, none, none, none, none, []⟩]) ⟨[], [], [], 0⟩ ∧
    ∀ r : RemoteCustomer, r.phone = none →
      shopifyMapper ⟨[], [], [], 0⟩ r = .ok (create_or_update_customer ⟨[], [], [], 0⟩ r)) :=
  ⟨rfl, per_record_errors_are_skipped _ 3 0 _ _ _ _ _ _ _ rfl⟩

/-! ## Claim C6: what the batch loop reports at the end -/

theorem processBatches_nil (f : DB → RemoteCustomer → Except String DB) (total : Nat)
    (processed : Nat) (st : DB × List LogEntry) :
    processBatches f total [] processed st = st := by
  unfold processBatches
  simp

theorem processBatches_step (f : DB → RemoteCustomer → Except String DB) (total : Nat)
    (l : List RemoteCustomer) (processed : Nat) (st : DB × List LogEntry)
    (h : l ≠ []) (hlen : l.length ≤ 1000) :
    processBatches f total l processed st =
      ((l.foldl (processRecord f) st).1,
        (l.foldl (processRecord f) st).2 ++ [.infoLog
          ("Processed " ++ toString (processed + 1000) ++ " / " ++ toString total ++
            " customers.")]) := by
  unfold processBatches
  rw [dif_neg h]
  have htk : l.take 1000 = l := List.take_of_length_le hlen
  have hdr : l.drop 1000 = [] := List.drop_eq_nil_of_le hlen
  simp only [htk, hdr, processBatches_nil]

theorem sync_all_one_page (f : DB → RemoteCustomer → Except String DB) (page : FetchResp)
    (db : DB) (hst : page.status = 200) (hlink : page.linkNext = none)
    (hne : page.customers ≠ []) (hlen : page.customers.length ≤ 1000) :
    sync_all_customers_with f [page] db =
      ⟨(page.customers.foldl (processRecord f)
          (db, [.infoLog ("Total customers fetched: " ++ toString page.customers.length ++
            ". Starting processing.")])).1,
        (page.customers.foldl (processRecord f)
          (db, [.infoLog ("Total customers fetched: " ++ toString page.customers.length ++
            ". Starting processing.")])).2 ++
          [.infoLog ("Processed " ++ toString (0 + 1000) ++ " / " ++
            toString page.customers.length ++ " customers."),
           .infoLog "Completed syncing all Shopify customers."], ()⟩ := by
  have hf : fetchPhase [page] [] [] = (page.customers, []) := by
    simp [fetchPhase, hst, hlink]
  unfold sync_all_customers_with
  rw [hf]
  simp only [List.nil_append]
  rw [processBatches_step f page.customers.length page.customers 0 _ hne hlen]
  simp [List.append_assoc]

/-- C6 counterexample: a run over one page of two customers in which the
first record's mapping fails.  The complete output is: the store, this log
trail — which reports batch progress (`Processed 1000 / 2 customers.`) and
completion but no imported/failed aggregate — and the bare `None` return
value.  No aggregate counts of imported and failed records are reported
back to the caller. -/
theorem sync_reports_no_counts_counterexample :
    (sync_all_customers_with
        (fun _ r => if r.id = 1 then .error "boom" else .ok ⟨[], [], [], 0⟩)
        [⟨200, "", [⟨1, none, none, none, none, []⟩, ⟨2, none, none, none, none, []⟩], none⟩]
        ⟨[], [], [], 0⟩).logs =
      [.infoLog "Total customers fetched: 2. Starting processing.",
       .errorLog "Shopify Customer Import Error for ID 1: boom" "Shopify Customer Import Error",
       .infoLog "Processed 1000 / 2 customers.",
       .infoLog "Completed syncing all Shopify customers."] ∧
    (sync_all_customers_with
        (fun _ r => if r.id = 1 then .error "boom" else .ok ⟨[], [], [], 0⟩)
        [⟨200, "", [⟨1, none, none, none, none, []⟩, ⟨2, none, none, none, none, []⟩], none⟩]
        ⟨[], [], [], 0⟩).ret = () := by
  have h := sync_all_one_page
    (fun _ r => if r.id = 1 then .error "boom" else .ok ⟨[], [], [], 0⟩)
    ⟨200, "", [⟨1, none, none, none, none, []⟩, ⟨2, none, none, none, none, []⟩], none⟩
    ⟨[], [], [], 0⟩ rfl rfl (by decide) (by decide)
  constructor
  · rw [h]
    decide
  · rfl

/-- C6 amended: at the end of every run the batch loop logs per-batch
progress lines and a final completion line, and returns `None` to the
caller; no imported/failed aggregate is computed or returned. -/
theorem sync_all_end_report (f : DB → RemoteCustomer → Except String DB)
    (resps : List FetchResp) (db : DB) :
    (sync_all_customers_with f resps db).ret = () ∧
    (sync_all_customers_with f resps db).logs.getLast? =
      some (.infoLog "Completed syncing all Shopify customers.") := by
  refine ⟨rfl, ?_⟩
  show ((processBatches f (fetchPhase resps [] []).1.length (fetchPhase resps [] []).1 0
      (db, (fetchPhase resps [] []).2 ++ [.infoLog ("Total customers fetched: " ++
        toString (fetchPhase resps [] []).1.length ++ ". Starting processing.")])).2 ++
      [LogEntry.infoLog "Completed syncing all Shopify customers."]).getLast? = _
  rw [List.getLast?_concat]

/-! ## Claim C7: unregister-then-register webhook lifecycle -/

theorem isPrefixOf_append_self (n y : List Char) : n.isPrefixOf (n ++ y) = true := by
  induction n with
  | nil => cases y <;> rfl
  | cons c t ih => simp [List.isPrefixOf, ih]

theorem containsSub_of_isPrefixOf {n h : List Char} (hp : n.isPrefixOf h = true) :
    containsSub n h = true := by
  cases h with
  | nil => simpa [containsSub] using hp
  | cons c rest => simp [containsSub, hp]

theorem containsSub_append_self (n x y : List Char) : containsSub n (x ++ (n ++ y)) = true := by
  induction x with
  | nil => exact containsSub_of_isPrefixOf (isPrefixOf_append_self n y)
  | cons c t ih => simp [containsSub, ih]

theorem containsSub_callback (domain : String) :
    containsSub domain.toList (get_callback_url domain).toList = true := by
  have h : (get_callback_url domain).toList =
      "https://".toList ++ (domain.toList ++
        "/api/method/ecommerce_integrations.shopify.connection.store_request_data".toList) := by
    simp [get_callback_url, String.toList, String.data_append, List.append_assoc]
  rw [h]
  exact containsSub_append_self _ _ _

theorem unregFold (domain : String) :
    ∀ (L : List RemoteWebhook) (s : ShopState),
    (L.foldl (fun st w => if containsSub domain.toList w.address.toList then
        deleteWebhook st w.id else st) s) =
      ⟨s.webhooks.filter (fun w => !((delIds domain L).contains w.id)), s.nextId⟩ := by
  intro L
  induction L with
  | nil =>
    intro s
    simp [delIds]
  | cons v t ih =>
    intro s
    simp only [List.foldl_cons]
    by_cases hv : containsSub domain.toList v.address.toList = true
    · rw [if_pos hv, ih]
      have hv2 : containsSub domain.data v.address.data = true := hv
      have hdel : delIds domain (v :: t) = v.id :: delIds domain t := by
        simp [delIds, List.filter_cons, hv2]
      rw [hdel]
      simp only [deleteWebhook]
      congr 1
      rw [List.filter_filter]
      apply List.filter_congr
      intro w _
      rw [Bool.eq_iff_iff]
      simp only [List.contains_cons, Bool.and_eq_true, Bool.not_eq_true', Bool.or_eq_false_iff,
        decide_eq_true_eq, ne_eq, beq_eq_false_iff_ne]
      tauto
    · rw [if_neg hv, ih]
      have hv2 : containsSub domain.data v.address.data = false := by
        simpa using hv
      have hdel : delIds domain (v :: t) = delIds domain t := by
        simp [delIds, List.filter_cons, hv2]
      rw [hdel]

theorem unregister_webhooks_spec (domain : String) (s : ShopState) :
    unregister_webhooks domain s =
      ⟨s.webhooks.filter (fun w => !((delIds domain s.webhooks).contains w.id)), s.nextId⟩ :=
  unregFold domain s.webhooks s

theorem unregister_survivor {domain : String} {s : ShopState} {w : RemoteWebhook}
    (hw : w ∈ (unregister_webhooks domain s).webhooks) :
    w ∈ s.webhooks ∧ containsSub domain.toList w.address.toList = false := by
  rw [unregister_webhooks_spec] at hw
  simp only [List.mem_filter] at hw
  refine ⟨hw.1, ?_⟩
  by_contra hc
  have htrue : containsSub domain.toList w.address.toList = true := by
    cases hb : containsSub domain.toList w.address.toList
    · exact absurd hb hc
    · rfl
  have hmemdel : w.id ∈ delIds domain s.webhooks :=
    List.mem_map.mpr ⟨w, List.mem_filter.mpr ⟨hw.1, htrue⟩, rfl⟩
  have hcon := hw.2
  have hct : (delIds domain s.webhooks).contains w.id = true := by
    simpa using hmemdel
  rw [hct] at hcon
  simp at hcon

theorem registerLoop_spec (domain : String) :
    ∀ (topics : List String) (s : ShopState) (acc : List RemoteWebhook),
    registerLoop domain topics (s, acc) =
      (⟨s.webhooks ++ mkRegged domain s.nextId topics, s.nextId + topics.length⟩,
        acc ++ mkRegged domain s.nextId topics) := by
  intro topics
  induction topics with
  | nil =>
    intro s acc
    simp [registerLoop, mkRegged]
  | cons tp ts ih =>
    intro s acc
    have hstep : registerLoop domain (tp :: ts) (s, acc) =
        registerLoop domain ts
          (⟨s.webhooks ++ [⟨s.nextId, tp, get_callback_url domain⟩], s.nextId + 1⟩,
            acc ++ [⟨s.nextId, tp, get_callback_url domain⟩]) := rfl
    rw [hstep, ih]
    simp only [mkRegged, List.cons_append, List.append_assoc, List.length_cons,
      List.singleton_append, Prod.mk.injEq, ShopState.mk.injEq]
    refine ⟨⟨rfl, by omega⟩, rfl⟩

theorem mem_mkRegged {domain : String} :
    ∀ {ts : List String} {i : Nat} {w : RemoteWebhook},
    w ∈ mkRegged domain i ts → w.address = get_callback_url domain ∧ w.topic ∈ ts := by
  intro ts
  induction ts with
  | nil => intro i w h; cases h
  | cons u us ih =>
    intro i w h
    rcases List.mem_cons.mp h with h | h
    · rw [h]
      exact ⟨rfl, List.mem_cons_self u us⟩
    · obtain ⟨ha, ht⟩ := ih h
      exact ⟨ha, List.mem_cons_of_mem _ ht⟩

theorem mkRegged_count (domain : String) :
    ∀ (ts : List String) (i : Nat) (t : String), ts.Nodup → t ∈ ts →
    ((mkRegged domain i ts).filter (fun w => w.address == get_callback_url domain &&
      w.topic == t)).length = 1 := by
  intro ts
  induction ts with
  | nil => intro i t _ h; cases h
  | cons u us ih =>
    intro i t hnd ht
    simp only [List.nodup_cons] at hnd
    simp only [mkRegged, List.filter_cons]
    by_cases hu : u = t
    · subst hu
      rw [if_pos (by simp)]
      simp only [List.length_cons]
      have hnil : (mkRegged domain (i + 1) us).filter
          (fun w => w.address == get_callback_url domain && w.topic == u) = [] := by
        rw [List.filter_eq_nil_iff]
        intro w hw
        obtain ⟨_, htp⟩ := mem_mkRegged hw
        simp only [Bool.and_eq_true, beq_iff_eq]
        rintro ⟨_, hwt⟩
        exact hnd.1 (hwt ▸ htp)
      rw [hnil]
      rfl
    · rw [if_neg (by simp [hu])]
      rcases List.mem_cons.mp ht with h | h
      · exact absurd h.symm hu
      · exact ih (i + 1) t hnd.2 h

/-- C7: `register_webhooks` first deletes every remote subscription whose
address contains the current domain, then creates one subscription per
required topic at the current callback URL; afterwards exactly one
subscription per topic exists for the current callback URL and none
remains for any other (stale) callback URL of this deployment (stated for
a duplicate-free required-topic list, since the topic constants module is
not among the sources). -/
theorem register_webhooks_lifecycle (domain : String) (topics : List String) (s : ShopState)
    (hnd : topics.Nodup) :
    (∀ t ∈ topics,
      ((register_webhooks domain topics s).1.webhooks.filter
        (fun w => w.address == get_callback_url domain && w.topic == t)).length = 1) ∧
    (∀ w ∈ (register_webhooks domain topics s).1.webhooks,
      containsSub domain.toList w.address.toList = true →
        w.address = get_callback_url domain) := by
  have hreg : register_webhooks domain topics s =
      (⟨(unregister_webhooks domain s).webhooks ++
          mkRegged domain (unregister_webhooks domain s).nextId topics,
        (unregister_webhooks domain s).nextId + topics.length⟩,
        [] ++ mkRegged domain (unregister_webhooks domain s).nextId topics) := by
    unfold register_webhooks
    rw [registerLoop_spec]
  constructor
  · intro t ht
    rw [hreg]
    simp only [List.filter_append]
    have hsurv : (unregister_webhooks domain s).webhooks.filter
        (fun w => w.address == get_callback_url domain && w.topic == t) = [] := by
      rw [List.filter_eq_nil_iff]
      intro w hw
      have hns := (unregister_survivor hw).2
      simp only [Bool.and_eq_true, beq_iff_eq]
      rintro ⟨hwa, _⟩
      rw [hwa, containsSub_callback domain] at hns
      exact Bool.noConfusion hns
    rw [hsurv]
    simpa using mkRegged_count domain topics _ t hnd ht
  · intro w hw hcont
    rw [hreg] at hw
    simp only [List.mem_append] at hw
    rcases hw with h | h
    · have hns := (unregister_survivor h).2
      rw [hcont] at hns
      exact Bool.noConfusion hns
    · exact (mem_mkRegged h).1

/-- Witness for C7 at a concrete shop state with one stale subscription. -/
theorem register_webhooks_lifecycle_witness :
    (["orders/create", "orders/cancelled"] : List String).Nodup ∧
    ((∀ t ∈ (["orders/create", "orders/cancelled"] : List String),
      ((register_webhooks "shop.example" ["orders/create", "orders/cancelled"]
          ⟨[⟨5, "orders/create", "https://shop.example/api/method/old.endpoint"⟩,
            ⟨6, "orders/create", "https://other.site/cb"⟩], 7⟩).1.webhooks.filter
        (fun w => w.address == get_callback_url "shop.example" && w.topic == t)).length = 1) ∧
    (∀ w ∈ (register_webhooks "shop.example" ["orders/create", "orders/cancelled"]
          ⟨[⟨5, "orders/create", "https://shop.example/api/method/old.endpoint"⟩,
            ⟨6, "orders/create", "https://other.site/cb"⟩], 7⟩).1.webhooks,
      containsSub "shop.example".toList w.address.toList = true →
        w.address = get_callback_url "shop.example")) :=
  ⟨by decide, register_webhooks_lifecycle _ _ _ (by decide)⟩

/-! ## Claim C8: contact matching by bare phone number collides -/

/-- C8: the contact lookup key is the bare phone number alone: syncing two
remote customers carrying the same phone resolves both to the same local
Contact document, and the second sync overwrites that contact's name and
email fields with the second customer's values — afterwards the store
holds a single contact for that phone. -/
theorem handle_customer_contacts_phone_collision (db : DB) (c1 c2 : CustomerDoc)
    (r1 r2 : RemoteCustomer) (p f2 e2 : String)
    (hwf : DBWF db)
    (hp1 : r1.phone = some p) (hp2 : r2.phone = some p) (hpne : p ≠ "")
    (hnophone : ∀ k ∈ db.contacts, k.phone ≠ p)
    (hf2 : r2.first_name = some f2) (hf2ne : f2 ≠ "")
    (he2 : r2.email = some e2) (he2ne : e2 ≠ "") :
    (handle_customer_contacts c2 r2 (handle_customer_contacts c1 r1 db)).contacts =
      db.contacts ++ [⟨db.nextName, some f2, r2.last_name, p, some e2⟩] := by
  simp only [handle_customer_contacts, hp1, hp2, if_neg hpne]
  have hfind1 : db.contacts.find? (fun x => x.phone == p) = none :=
    List.find?_eq_none.mpr fun x hx => by simp [hnophone x hx]
  have h1 : contactUpsert c1 r1 p db =
      { db with
        contacts := db.contacts ++ [applyContactFields c1 r1 p (mkNewContact db.nextName)],
        nextName := db.nextName + 1 } := by
    unfold contactUpsert upsertDoc
    rw [hfind1]
  rw [h1]
  have hd1p : (applyContactFields c1 r1 p (mkNewContact db.nextName)).phone = p := rfl
  have hd1n : (applyContactFields c1 r1 p (mkNewContact db.nextName)).name = db.nextName := rfl
  have hfind2 : (db.contacts ++ [applyContactFields c1 r1 p (mkNewContact db.nextName)]).find?
      (fun x => x.phone == p) = some (applyContactFields c1 r1 p (mkNewContact db.nextName)) := by
    rw [List.find?_append, hfind1]
    simp only [Option.none_or]
    exact List.find?_cons_of_pos _ (by simp [hd1p])
  have hloadpre : db.contacts.find?
      (fun x => decide (x.name = (applyContactFields c1 r1 p (mkNewContact db.nextName)).name)) =
      none := by
    apply List.find?_eq_none.mpr
    intro x hx
    simp only [decide_eq_true_eq, hd1n]
    exact Nat.ne_of_lt (hwf.2.2.2 x hx)
  have hd2 : applyContactFields c2 r2 p (applyContactFields c1 r1 p (mkNewContact db.nextName)) =
      ⟨db.nextName, some f2, r2.last_name, p, some e2⟩ := by
    simp [applyContactFields, orStr, truthy, mkNewContact, hf2, hf2ne, he2, he2ne]
  show (upsertDoc (fun x : ContactDoc => x.name) (fun x => x.phone == p)
      (applyContactFields c2 r2 p) mkNewContact
      (db.contacts ++ [applyContactFields c1 r1 p (mkNewContact db.nextName)])
      (db.nextName + 1)).docs = _
  unfold upsertDoc
  rw [hfind2]
  simp only
  unfold findByName
  rw [List.find?_append, hloadpre]
  simp only [Option.none_or]
  rw [List.find?_cons_of_pos _ (by simp)]
  simp only [Option.getD_some]
  unfold replaceByName
  rw [List.map_append]
  congr 1
  · conv_rhs => rw [← List.map_id db.contacts]
    apply List.map_congr_left
    intro x hx
    simp only [id]
    rw [if_neg]
    rw [hd1n]
    exact Nat.ne_of_lt (hwf.2.2.2 x hx)
  · simp only [List.map_cons, List.map_nil, if_pos rfl]
    rw [hd2]
    simp

/-- Witness for C8 at a concrete store and two phone-sharing customers. -/
theorem handle_customer_contacts_phone_collision_witness :
    DBWF ⟨[], [], [], 0⟩ ∧
    (⟨1, some "Bob", none, none, some "555", []⟩ : RemoteCustomer).phone = some "555" ∧
    (⟨2, some "Eve", some "X", some "eve@x.com", some "555", []⟩ :
      RemoteCustomer).phone = some "555" ∧
    ("555" : String) ≠ "" ∧
    (handle_customer_contacts ⟨8, some "Eve X", "Individual", "g", "t", "2", none, none⟩
        ⟨2, some "Eve", some "X", some "eve@x.com", some "555", []⟩
        (handle_customer_contacts ⟨7, some "Bob", "Individual", "g", "t", "1", none, none⟩
          ⟨1, some "Bob", none, none, some "555", []⟩ ⟨[], [], [], 0⟩)).contacts =
      ([] : List ContactDoc) ++ [⟨0, some "Eve", some "X", "555", some "eve@x.com"⟩] :=
  ⟨by decide, rfl, rfl, by decide,
    handle_customer_contacts_phone_collision ⟨[], [], [], 0⟩
      ⟨7, some "Bob", "Individual", "g", "t", "1", none, none⟩
      ⟨8, some "Eve X", "Individual", "g", "t", "2", none, none⟩
      ⟨1, some "Bob", none, none, some "555", []⟩
      ⟨2, some "Eve", some "X", some "eve@x.com", some "555", []⟩
      "555" "Eve" "eve@x.com" (by decide) rfl rfl (by decide)
      (by intro k hk; cases hk) rfl (by decide) rfl (by decide)⟩

/-! ## Claim C10: unmapped webhook topics raise before any effect -/

/-- C10: when the inbound topic is not a key of the event mapper,
`process_request` fails with a `KeyError` before creating the log entry or
enqueuing any background job — the effect list exists only on the success
path, so only mapped topics are ever enqueued. -/
theorem process_request_unmapped_topic (mapper : List (String × String)) (event : String)
    (h : lookupMapper mapper event = none) :
    process_request mapper event = .error ("KeyError: " ++ event) ∧
    ∀ effs : List Effect, process_request mapper event ≠ .ok effs := by
  unfold process_request
  rw [h]
  exact ⟨rfl, fun effs hc => Except.noConfusion hc⟩

/-- Witness for C10 at a concrete mapper and unmapped topic. -/
theorem process_request_unmapped_topic_witness :
    lookupMapper [("orders/create", "shopify.order.sync")] "customers/update" = none ∧
    (process_request [("orders/create", "shopify.order.sync")] "customers/update" =
      .error ("KeyError: " ++ "customers/update") ∧
    ∀ effs : List Effect,
      process_request [("orders/create", "shopify.order.sync")] "customers/update" ≠
        .ok effs) :=
  ⟨by decide, process_request_unmapped_topic _ _ (by decide)⟩
